import Mathlib

set_option maxRecDepth 4000

/-!
Shallow embedding of the buysmart-agent pipeline
(src/backend/src/agents/{query_parser,crawler,ranker,orchestrator}.py).

Strings from the Python source are modelled as `List Char`.  Python's
`json` module, `re` patterns used by the agents, `urllib.parse.quote_plus`
and `float()` are modelled by executable Lean functions below; external
effects (HTTP calls to hosted LLMs, the crawl4ai fetch, the Django ORM)
are modelled as explicit parameters / explicit state passing.
-/

/-- The backtick character (used by the markdown fence patterns). -/
def btick : Char := Char.ofNat 96

/-- Opening curly brace. -/
def lbrace : Char := Char.ofNat 123

/-- Closing curly brace. -/
def rbrace : Char := Char.ofNat 125

/-- Single-quote character (used by Python `repr` of strings). -/
def squote : Char := Char.ofNat 39

/-- Whitespace for Python's `str.strip()` and the regex class `\s`
(ASCII range; exotic unicode spaces are not modelled). -/
def isPyWs (c : Char) : Bool :=
  c = ' ' || c = '\t' || c = '\n' || c = '\r' || c = Char.ofNat 11 || c = Char.ofNat 12

/-- Whitespace accepted by `json.loads` between JSON tokens. -/
def isJsonWs (c : Char) : Bool :=
  c = ' ' || c = '\t' || c = '\n' || c = '\r'

/-- Left part of Python `str.strip()`. -/
def trimLeft (l : List Char) : List Char := l.dropWhile isPyWs

/-- Right part of Python `str.strip()`. -/
def trimRight (l : List Char) : List Char := (l.reverse.dropWhile isPyWs).reverse

/-- Python `str.strip()`. -/
def pyStrip (l : List Char) : List Char := trimRight (trimLeft l)

/-- JSON values as produced by Python's `json.loads`.  `num` keeps the
int/float distinction Python makes (`85` vs `85.0`); non-finite floats
(`NaN`, `Infinity`) accepted by `json.loads` are not modelled since the
agents never feed them. -/
inductive Json where
  | null
  | bool (b : Bool)
  | num (q : ℚ) (isFloat : Bool)
  | str (s : List Char)
  | arr (elems : List Json)
  | obj (fields : List (List Char × Json))

/-- Lookup in a Python-dict field list (keys are unique by construction). -/
def lookupKey : List (List Char × Json) → List Char → Option Json
  | [], _ => none
  | (k', v) :: rest, k => if k' = k then some v else lookupKey rest k

/-- Python dict assignment: an existing key is updated in place (keeping
its position), a new key is appended. -/
def insertKey : List (List Char × Json) → List Char → Json → List (List Char × Json)
  | [], k, v => [(k, v)]
  | (k', v') :: rest, k, v =>
    if k' = k then (k', v) :: rest else (k', v') :: insertKey rest k v

/-- `d.get(k)` / `d[k]` lookup on a dict-shaped value (callers that may
receive a non-dict model Python's `AttributeError` at the call site). -/
def dictGet (j : Json) (k : List Char) : Option Json :=
  match j with
  | .obj fields => lookupKey fields k
  | _ => none

/-- Whether a JSON value is a Python dict. -/
def isObj : Json → Bool
  | .obj _ => true
  | _ => false

/-- Python truthiness of a JSON-shaped value. -/
def truthy : Json → Bool
  | .null => false
  | .bool b => b
  | .num q _ => if q = 0 then false else true
  | .str s => if s = [] then false else true
  | .arr l => !l.isEmpty
  | .obj f => !f.isEmpty

/-- Python runtime exceptions relevant to the agents.  Exception message
texts are not tracked here (the orchestrator-level error text is tracked
separately where a claim needs it). -/
inductive PyErr where
  | jsonDecode
  | valueError
  | typeError
  | attributeError
deriving DecidableEq, Repr

/-! ### A model of Python `json.loads` (strict JSON) -/

/-- Skip JSON inter-token whitespace. -/
def skipJWs (l : List Char) : List Char := l.dropWhile isJsonWs

/-- Numeric value of a digit list. -/
def digitsVal (ds : List Char) : Nat := ds.foldl (fun a c => 10 * a + (c.toNat - 48)) 0

/-- Hex digit value. -/
def hexVal (c : Char) : Option Nat :=
  if c.isDigit then some (c.toNat - 48)
  else if 'a' ≤ c && c ≤ 'f' then some (c.toNat - 87)
  else if 'A' ≤ c && c ≤ 'F' then some (c.toNat - 55)
  else none

/-- JSON string body after the opening quote: returns (content, rest after
closing quote).  Strict mode: raw control characters are rejected.
Surrogate-pair recombination for `\u` escapes is not modelled. -/
def jpStringBody : List Char → Option (List Char × List Char)
  | [] => none
  | c :: rest =>
    if c = '"' then some ([], rest)
    else if c = '\\' then
      match rest with
      | [] => none
      | e :: rest2 =>
        if e = '"' || e = '\\' || e = '/' then
          (jpStringBody rest2).map (fun p => (e :: p.1, p.2))
        else if e = 'b' then (jpStringBody rest2).map (fun p => (Char.ofNat 8 :: p.1, p.2))
        else if e = 'f' then (jpStringBody rest2).map (fun p => (Char.ofNat 12 :: p.1, p.2))
        else if e = 'n' then (jpStringBody rest2).map (fun p => ('\n' :: p.1, p.2))
        else if e = 'r' then (jpStringBody rest2).map (fun p => ('\r' :: p.1, p.2))
        else if e = 't' then (jpStringBody rest2).map (fun p => ('\t' :: p.1, p.2))
        else if e = 'u' then
          match rest2 with
          | h1 :: h2 :: h3 :: h4 :: rest6 =>
            match hexVal h1, hexVal h2, hexVal h3, hexVal h4 with
            | some a, some b, some c', some d =>
              (jpStringBody rest6).map
                (fun p => (Char.ofNat (((a * 16 + b) * 16 + c') * 16 + d) :: p.1, p.2))
            | _, _, _, _ => none
          | _ => none
        else none
    else if c.toNat < 32 then none
    else (jpStringBody rest).map (fun p => (c :: p.1, p.2))

/-- Integer part per Python json's number regex: `0` or `[1-9]\d*`. -/
def jpIntPart : List Char → Option (Nat × List Char)
  | [] => none
  | c :: rest =>
    if c = '0' then some (0, rest)
    else if c.isDigit then
      some (digitsVal ((c :: rest).takeWhile Char.isDigit),
            (c :: rest).dropWhile Char.isDigit)
    else none

/-- Optional fraction part `(\.\d+)?`. -/
def jpFracPart (l : List Char) : ℚ × Bool × List Char :=
  match l with
  | c :: rest =>
    if c = '.' then
      let ds := rest.takeWhile Char.isDigit
      if ds = [] then (0, false, l)
      else ((digitsVal ds : ℚ) / (10 : ℚ) ^ ds.length, true, rest.dropWhile Char.isDigit)
    else (0, false, l)
  | [] => (0, false, l)

/-- Optional exponent part `([eE][-+]?\d+)?`. -/
def jpExpPart (l : List Char) : ℤ × Bool × List Char :=
  match l with
  | c :: rest =>
    if c = 'e' || c = 'E' then
      match rest with
      | s :: rest2 =>
        if s = '+' || s = '-' then
          let ds := rest2.takeWhile Char.isDigit
          if ds = [] then (0, false, l)
          else (if s = '-' then -(digitsVal ds : ℤ) else (digitsVal ds : ℤ),
                true, rest2.dropWhile Char.isDigit)
        else
          let ds := rest.takeWhile Char.isDigit
          if ds = [] then (0, false, l)
          else ((digitsVal ds : ℤ), true, rest.dropWhile Char.isDigit)
      | [] => (0, false, l)
    else (0, false, l)
  | [] => (0, false, l)

/-- JSON number per Python json's NUMBER_RE. -/
def jpNumber (l : List Char) : Option (Json × List Char) :=
  let (neg, l1) : Bool × List Char :=
    match l with
    | c :: rest => if c = '-' then (true, rest) else (false, l)
    | [] => (false, l)
  match jpIntPart l1 with
  | none => none
  | some (ip, l2) =>
    let (fq, hasFrac, l3) := jpFracPart l2
    let (ex, hasExp, l4) := jpExpPart l3
    let mag : ℚ := ((ip : ℚ) + fq) * (10 : ℚ) ^ ex
    some (.num (if neg then -mag else mag) (hasFrac || hasExp), l4)

mutual

/-- One JSON value (fuelled recursion; `jsonParse` supplies ample fuel). -/
def jpValue : Nat → List Char → Option (Json × List Char)
  | 0, _ => none
  | _, [] => none
  | fuel + 1, c :: rest =>
    if c = lbrace then jpObjLoop fuel true [] (skipJWs rest)
    else if c = '[' then jpArrLoop fuel true [] (skipJWs rest)
    else if c = '"' then (jpStringBody rest).map (fun p => (.str p.1, p.2))
    else if c = 't' then
      if rest.take 3 = ['r', 'u', 'e'] then some (.bool true, rest.drop 3) else none
    else if c = 'f' then
      if rest.take 4 = ['a', 'l', 's', 'e'] then some (.bool false, rest.drop 4) else none
    else if c = 'n' then
      if rest.take 3 = ['u', 'l', 'l'] then some (.null, rest.drop 3) else none
    else if c = '-' || c.isDigit then jpNumber (c :: rest)
    else none

/-- Object members; input position is just after `{` (first=true) or just
after a `,` (first=false), whitespace already skipped. -/
def jpObjLoop : Nat → Bool → List (List Char × Json) → List Char →
    Option (Json × List Char)
  | 0, _, _, _ => none
  | _, _, _, [] => none
  | fuel + 1, first, acc, c :: rest =>
    if first && c = rbrace then some (.obj acc, rest)
    else if c = '"' then
      match jpStringBody rest with
      | none => none
      | some (k, r1) =>
        match skipJWs r1 with
        | ':' :: r2 =>
          match jpValue fuel (skipJWs r2) with
          | none => none
          | some (v, r3) =>
            match skipJWs r3 with
            | ',' :: r4 => jpObjLoop fuel false (insertKey acc k v) (skipJWs r4)
            | d :: r4 => if d = rbrace then some (.obj (insertKey acc k v), r4) else none
            | [] => none
        | _ => none
    else none

/-- Array elements; input position just after `[` or `,`, ws skipped. -/
def jpArrLoop : Nat → Bool → List Json → List Char → Option (Json × List Char)
  | 0, _, _, _ => none
  | _, _, _, [] => none
  | fuel + 1, first, acc, c :: rest =>
    if first && c = ']' then some (.arr acc.reverse, rest)
    else
      match jpValue fuel (c :: rest) with
      | none => none
      | some (v, r1) =>
        match skipJWs r1 with
        | ',' :: r2 => jpArrLoop fuel false (v :: acc) (skipJWs r2)
        | ']' :: r2 => some (.arr (v :: acc).reverse, r2)
        | _ => none

end

/-- Model of Python `json.loads`: parse one document, allow surrounding
JSON whitespace, reject trailing data.  `none` models `JSONDecodeError`. -/
def jsonParse (l : List Char) : Option Json :=
  match jpValue (2 * l.length + 2) (skipJWs l) with
  | some (v, rest) => if skipJWs rest = [] then some v else none
  | none => none

/-! ### Models of the `re` patterns used by the agents -/

/-- True when the list starts with three backticks. -/
def startsFence : List Char → Bool
  | c1 :: c2 :: c3 :: _ => c1 = btick && c2 = btick && c3 = btick
  | _ => false

/-- Split at the first occurrence of a three-backtick fence:
`some (before, after)` with the fence itself dropped. -/
def fenceSplit : List Char → Option (List Char × List Char)
  | [] => none
  | c :: rest =>
    if startsFence (c :: rest) then some ([], rest.drop 2)
    else (fenceSplit rest).map (fun p => (c :: p.1, p.2))

/-- The literal `json` tag of the fence pattern. -/
def jsonTag : List Char := ['j', 's', 'o', 'n']

/-- First capture group of
`re.findall(r"```(?:json)?\s*\n?(.*?)\n?\s*```", text, re.DOTALL)`,
shared by `QueryParser._extract_json`, `ProductRanker._extract_json` and
`ProductCrawler._parse_extracted_content`.

Operationally (matching the backtracking engine on this pattern): find
the first opening fence, greedily take a literal `json` tag and the
maximal whitespace run, then the lazy group ends at the earliest point
from which a whitespace run followed by a closing fence starts.  When an
opening fence has no closing fence after it, no later start position can
match either, so the scan reports no match. -/
def findFencedBlock : List Char → Option (List Char)
  | [] => none
  | c :: rest =>
    if startsFence (c :: rest) then
      let r1 := rest.drop 2
      let r2 := if jsonTag.isPrefixOf r1 then r1.drop 4 else r1
      let r3 := r2.dropWhile isPyWs
      match fenceSplit r3 with
      | some (before, _) => some (trimRight before)
      | none => none
    else findFencedBlock rest

/-- Scanner for one candidate of `\{[^{}]*(?:\{[^{}]*\}[^{}]*)*\}`
starting just after an opening `{`.  The flag records whether the scan is
inside a depth-1 inner `{...}` group (where a further `{` kills the
candidate).  Returns (content between the outer braces, rest after the
outer `}`). -/
def objScanAux : Bool → List Char → Option (List Char × List Char)
  | _, [] => none
  | inner, c :: rest =>
    if c = rbrace then
      if inner then (objScanAux false rest).map (fun p => (c :: p.1, p.2))
      else some ([], rest)
    else if c = lbrace then
      if inner then none
      else (objScanAux true rest).map (fun p => (c :: p.1, p.2))
    else (objScanAux inner rest).map (fun p => (c :: p.1, p.2))

/-- `re.findall(r"\{[^{}]*(?:\{[^{}]*\}[^{}]*)*\}", text, re.DOTALL)`:
leftmost non-overlapping full matches (the pattern has no groups). -/
def findObjMatchesAux : Nat → List Char → List (List Char)
  | 0, _ => []
  | _, [] => []
  | fuel + 1, c :: rest =>
    if c = lbrace then
      match objScanAux false rest with
      | some (content, rest') =>
        (lbrace :: (content ++ [rbrace])) :: findObjMatchesAux fuel rest'
      | none => findObjMatchesAux fuel rest
    else findObjMatchesAux fuel rest

/-- All matches of the brace pattern. -/
def findObjMatches (l : List Char) : List (List Char) :=
  findObjMatchesAux l.length l

/-- First match of `re.findall(r"\[.*\]", content, re.DOTALL)`: with the
greedy dot-all `.*` this spans from the first `[` to the last `]` (when
one exists after it). -/
def findArrMatch (l : List Char) : Option (List Char) :=
  let suffix := l.dropWhile (fun c => !(c = '['))
  match suffix with
  | [] => none
  | _ :: rest =>
    let r := rest.reverse.dropWhile (fun c => !(c = ']'))
    match r with
    | [] => none
    | _ :: body => some ('[' :: (body.reverse ++ [']']))

/-! ### Python `float()` and `urllib.parse.quote_plus` -/

/-- Python `float(s)` on an ASCII string: optional surrounding whitespace,
optional sign, digits with an optional decimal point (at least one digit
overall), optional exponent.  Digit-group underscores and the `inf`/`nan`
literals are not modelled (the crawler/orchestrator never receive them in
the scenarios the claims quantify over). -/
def pyFloat (s : List Char) : Option ℚ :=
  let t := pyStrip s
  let (neg, t1) : Bool × List Char :=
    match t with
    | c :: rest => if c = '-' then (true, rest) else if c = '+' then (false, rest) else (false, t)
    | [] => (false, t)
  let ipart := t1.takeWhile Char.isDigit
  let t2 := t1.dropWhile Char.isDigit
  let (fpart, t3) : List Char × List Char :=
    match t2 with
    | c :: rest => if c = '.' then (rest.takeWhile Char.isDigit, rest.dropWhile Char.isDigit)
                   else ([], t2)
    | [] => ([], t2)
  if ipart = [] && fpart = [] then none
  else
    let base : ℚ := (digitsVal ipart : ℚ) + (digitsVal fpart : ℚ) / (10 : ℚ) ^ fpart.length
    let (ex, t4) : Option ℤ × List Char :=
      match t3 with
      | c :: rest =>
        if c = 'e' || c = 'E' then
          match rest with
          | s' :: rest2 =>
            if s' = '+' || s' = '-' then
              let ds := rest2.takeWhile Char.isDigit
              if ds = [] then (none, t3)
              else (some (if s' = '-' then -(digitsVal ds : ℤ) else (digitsVal ds : ℤ)),
                    rest2.dropWhile Char.isDigit)
            else
              let ds := rest.takeWhile Char.isDigit
              if ds = [] then (none, t3)
              else (some (digitsVal ds : ℤ), rest.dropWhile Char.isDigit)
          | [] => (none, t3)
        else (some 0, t3)
      | [] => (some 0, t3)
    match ex, t4 with
    | some e, [] =>
      let v := base * (10 : ℚ) ^ e
      some (if neg then -v else v)
    | _, _ => none

/-! ### Python `str()` / `repr()` of JSON-shaped values -/

/-- Decimal digits of a natural number. -/
def natStr (n : Nat) : List Char := (toString n).toList

/-- Smallest power of ten clearing the denominator (search bound 30 is
ample for every value the agents handle). -/
def decExp (q : ℚ) : Option Nat := (List.range 31).find? (fun k => (q * 10 ^ k).den = 1)

/-- Render a Python number.  Ints render as their digits; floats render
as an exact decimal with at least one fractional digit (`85.0`), which
agrees with Python `repr` on every decimally-representable float the
agents produce.  Shortest-round-trip quirks of binary floats are not
modelled. -/
def numStr (q : ℚ) (isFloat : Bool) : List Char :=
  let sign : List Char := if q < 0 then ['-'] else []
  let aq := |q|
  if !isFloat then sign ++ natStr aq.num.natAbs
  else
    match decExp aq with
    | some k =>
      let m := (aq * 10 ^ k).num.natAbs
      let ds := natStr m
      let ds := if ds.length ≤ k then List.replicate (k + 1 - ds.length) '0' ++ ds else ds
      let ipart := ds.take (ds.length - k)
      let fpartRaw := ds.drop (ds.length - k)
      let fpart := (fpartRaw.reverse.dropWhile (fun c => c = '0')).reverse
      sign ++ ipart ++ '.' :: (if fpart = [] then ['0'] else fpart)
    | none => sign ++ natStr aq.num.natAbs ++ '/' :: natStr aq.den

mutual

/-- Python `repr` of a JSON-shaped value (string escaping inside `repr`
of strings is not modelled; the agents only format it into log-style
markdown text). -/
def pyRepr : Json → List Char
  | .null => ['N', 'o', 'n', 'e']
  | .bool b => if b then ['T', 'r', 'u', 'e'] else ['F', 'a', 'l', 's', 'e']
  | .num q f => numStr q f
  | .str s => squote :: s ++ [squote]
  | .arr elems => '[' :: (List.intercalate [',', ' '] (pyReprList elems)) ++ [']']
  | .obj fields => lbrace :: (List.intercalate [',', ' '] (pyReprFields fields)) ++ [rbrace]

/-- `repr` of each list element. -/
def pyReprList : List Json → List (List Char)
  | [] => []
  | j :: rest => pyRepr j :: pyReprList rest

/-- `repr` of each dict entry. -/
def pyReprFields : List (List Char × Json) → List (List Char)
  | [] => []
  | (k, v) :: rest => (squote :: k ++ squote :: ':' :: ' ' :: pyRepr v) :: pyReprFields rest

end

/-- Python `str()` of a JSON-shaped value (as used by f-string
interpolation and by `str(price)` in the orchestrator). -/
def pyStr : Json → List Char
  | .str s => s
  | j => pyRepr j

/-! ### `urllib.parse.quote_plus` -/

/-- Characters `quote_plus` leaves unescaped. -/
def isUrlSafe (c : Char) : Bool :=
  c.isAlphanum && c.toNat < 128 || c = '_' || c = '.' || c = '-' || c = '~'

/-- Uppercase hex digit. -/
def hexDigit (n : Nat) : Char :=
  if n < 10 then Char.ofNat (48 + n) else Char.ofNat (55 + n)

/-- Percent-encode one byte. -/
def pctByte (b : UInt8) : List Char :=
  ['%', hexDigit (b.toNat / 16), hexDigit (b.toNat % 16)]

/-- `urllib.parse.quote_plus`: spaces become `+`, safe characters pass
through, everything else is percent-encoded per UTF-8 byte. -/
def quote_plus (s : List Char) : List Char :=
  s.flatMap (fun c =>
    if c = ' ' then ['+']
    else if isUrlSafe c then [c]
    else (String.utf8EncodeChar c).flatMap pctByte)

/-! ### QueryParser (src/backend/src/agents/query_parser.py) -/

/-- `QueryParser._extract_json` (query_parser.py lines 164-195): three
tiers — direct parse of the stripped text; first fenced code block
(whose parse failure, uncaught, escapes as a `JSONDecodeError`); first
match of the brace pattern (same for its parse failure); otherwise
`ValueError`. -/
def extract_json (raw_text : List Char) : Except PyErr Json :=
  match jsonParse (pyStrip raw_text) with
  | some v => .ok v
  | none =>
    match findFencedBlock raw_text with
    | some block =>
      match jsonParse (pyStrip block) with
      | some v => .ok v
      | none => .error .jsonDecode
    | none =>
      match findObjMatches raw_text with
      | m :: _ =>
        match jsonParse m with
        | some v => .ok v
        | none => .error .jsonDecode
      | [] => .error .valueError

/-- Amazon search URL template (query_parser.py line 156). -/
def amazonUrl (q : List Char) : List Char :=
  "https://www.amazon.com/s?k=".toList ++ quote_plus q

/-- Best Buy search URL template (query_parser.py line 159). -/
def bestbuyUrl (q : List Char) : List Char :=
  "https://www.bestbuy.com/site/searchpage.jsp?st=".toList ++ quote_plus q

/-- The `for query in search_queries[:5]` loop body of
`generate_search_urls`: each phrase must be a string (`quote_plus` on a
non-string raises `TypeError`). -/
def buildSearchUrls : List Json → Except PyErr (List (List Char))
  | [] => .ok []
  | q :: rest =>
    match q with
    | .str s => (buildSearchUrls rest).map (fun us => amazonUrl s :: bestbuyUrl s :: us)
    | _ => .error .typeError

/-- `QueryParser.generate_search_urls` (query_parser.py lines 132-162).
`parsed_intent.get("search_queries", [])`; empty/falsy → `[]`; a truthy
non-list cannot be sliced by `[:5]` (`TypeError`); a non-dict intent has
no `.get` (`AttributeError`). -/
def generate_search_urls (parsed_intent : Json) : Except PyErr (List (List Char)) :=
  match parsed_intent with
  | .obj fields =>
    let sq := (lookupKey fields "search_queries".toList).getD (.arr [])
    if !truthy sq then .ok []
    else
      match sq with
      | .arr qs => buildSearchUrls (qs.take 5)
      | _ => .error .typeError
  | _ => .error .attributeError

/-! ### ProductRanker (src/backend/src/agents/ranker.py) -/

/-- Try each brace-pattern candidate in the order the ranker does
(longest first), accepting the first that parses. -/
def tryMatches : List (List Char) → Option Json
  | [] => none
  | m :: rest =>
    match jsonParse m with
    | some v => some v
    | none => tryMatches rest

/-- `ProductRanker._extract_json` (ranker.py lines 243-281).  Same first
two tiers as the parser's; the third tier sorts the brace-pattern
candidates longest-first (Python's stable `sorted(key=len, reverse=True)`)
and accepts the first that parses. -/
def extract_json_ranker (raw_text : List Char) : Except PyErr Json :=
  match jsonParse (pyStrip raw_text) with
  | some v => .ok v
  | none =>
    match findFencedBlock raw_text with
    | some block =>
      match jsonParse (pyStrip block) with
      | some v => .ok v
      | none => .error .jsonDecode
    | none =>
      let ms := findObjMatches raw_text
      match tryMatches (ms.mergeSort (fun a b => decide (b.length ≤ a.length))) with
      | some v => .ok v
      | none => .error .valueError

/-- Sort key of ranker.py line 153: `x.get("score", 0)`.  Python bools
are ints; a missing score is 0.  (Only meaningful under `scoreKeyOk`.) -/
def scoreKey (e : Json) : ℚ :=
  match dictGet e "score".toList with
  | some (.num q _) => q
  | some (.bool b) => if b then 1 else 0
  | _ => 0

/-- Entries Python's sort accepts without raising: dicts whose score is
absent or numeric (a non-dict entry has no `.get`; comparing a non-number
score with the numeric default raises `TypeError`; the exotic case of a
homogeneous list of, say, all-string scores is not modelled — no claim
exercises it). -/
def scoreKeyOk (e : Json) : Bool :=
  isObj e &&
    (match dictGet e "score".toList with
     | none => true
     | some (.num _ _) => true
     | some (.bool _) => true
     | some _ => false)

/-- `ranking_result["rankings"].sort(key=lambda x: x.get("score", 0),
reverse=True)`: Python's stable sort, descending by score. -/
def sortRankingsList (l : List Json) : Except PyErr (List Json) :=
  if l.all scoreKeyOk then
    .ok (l.mergeSort (fun a b => decide (scoreKey b ≤ scoreKey a)))
  else .error .typeError

/-- The fixed result for an empty product list (ranker.py lines 115-123). -/
def noProductsResult : Json :=
  .obj [("rankings".toList, .arr []),
        ("overall_summary".toList, .str "No products found to compare.".toList),
        ("best_overall".toList, .null),
        ("best_value".toList, .null),
        ("comparison_notes".toList, .str "No products were available for comparison.".toList)]

/-- The `if "rankings" in ranking_result: ...sort...` step of
`rank_products` (ranker.py lines 150-154), on the extracted value.
Python `in` on a non-dict result: list membership, string containment, or
`TypeError` for scalars; `.sort` on a non-list rankings value raises
`AttributeError`.  Errors here escape `rank_products` (its `except`
clauses only catch JSON/Value errors). -/
def sortRankingsStep (result : Json) : Except PyErr Json :=
  match result with
  | .obj fields =>
    match lookupKey fields "rankings".toList with
    | some (.arr l) =>
      (sortRankingsList l).map (fun l' => .obj (insertKey fields "rankings".toList (.arr l')))
    | some _ => .error .attributeError
    | none => .ok result
  | .arr elems =>
    if elems.any (fun e => match e with | .str s => s = "rankings".toList | _ => false)
    then .error .typeError else .ok result
  | .str s =>
    if decide ("rankings".toList <:+: s) then .error .typeError else .ok result
  | _ => .error .typeError

/-- `ProductRanker.rank_products` (ranker.py lines 94-167), with the LLM
messages call abstracted as `llmResp` (its text on success, the
`APIError` text on failure, which the method re-raises).  A JSON/Value
extraction error is re-raised as `ValueError("Could not parse ranking
response: ...")`; errors of the sort step escape as-is. -/
def rank_products {α : Type} (products : List α)
    (llmResp : Except (List Char) (List Char)) : Except (List Char) Json :=
  if products.isEmpty then .ok noProductsResult
  else
    match llmResp with
    | .error e => .error e
    | .ok raw =>
      match extract_json_ranker raw with
      | .error _ => .error "Could not parse ranking response".toList
      | .ok result =>
        match sortRankingsStep result with
        | .ok result' => .ok result'
        | .error .typeError => .error "TypeError".toList
        | .error _ => .error "AttributeError".toList

/-- Truthiness of an optional lookup (`d.get(k)` is `None` when absent). -/
def truthyOpt (o : Option Json) : Bool :=
  match o with
  | some v => truthy v
  | none => false

/-- The per-entry lines of the fallback summary's rankings loop
(ranker.py lines 302-307).  A non-dict entry has no `.get`:
`AttributeError`. -/
def fallbackLines : List Json → Except PyErr (List (List Char))
  | [] => .ok []
  | e :: rest =>
    match e with
    | .obj fields =>
      let name := (lookupKey fields "product_name".toList).getD (.str "Unknown".toList)
      let score := (lookupKey fields "score".toList).getD (.str "N/A".toList)
      let line1 := "- **".toList ++ pyStr name ++ "** â€” Score: ".toList
        ++ pyStr score ++ "/100".toList
      let reasoning := lookupKey fields "reasoning".toList
      let here := if truthyOpt reasoning
        then [line1, "  - ".toList ++ pyStr (reasoning.getD .null)]
        else [line1]
      (fallbackLines rest).map (fun ls => here ++ ls)
    | _ => .error .attributeError

/-- The `if rankings.get("rankings"):` section of the fallback summary
(ranker.py lines 300-307): the lines it contributes, or the exception
iterating a truthy non-list value raises (strings and dicts yield
non-dict items, `AttributeError` at `.get`; numbers and `True` are not
iterable, `TypeError`). -/
def fallbackRankSection (v : Option Json) : Except PyErr (List (List Char)) :=
  match v with
  | some val =>
    if truthy val then
      match val with
      | .arr elems => (fallbackLines elems).map (fun ls => "\n## Rankings\n".toList :: ls)
      | .str _ => .error .attributeError
      | .obj _ => .error .attributeError
      | _ => .error .typeError
    else .ok []
  | none => .ok []

/-- `ProductRanker._generate_fallback_summary` (ranker.py lines 283-312). -/
def generate_fallback_summary (rankings : Json) : Except PyErr (List Char) :=
  match rankings with
  | .obj fields =>
    let lines0 : List (List Char) := ["# Product Comparison Summary\n".toList]
    let bo := lookupKey fields "best_overall".toList
    let lines1 := if truthyOpt bo
      then lines0 ++ ["**Best Overall:** ".toList ++ pyStr (bo.getD .null) ++ "\n".toList]
      else lines0
    let bv := lookupKey fields "best_value".toList
    let lines2 := if truthyOpt bv
      then lines1 ++ ["**Best Value:** ".toList ++ pyStr (bv.getD .null) ++ "\n".toList]
      else lines1
    match fallbackRankSection (lookupKey fields "rankings".toList) with
    | .error err => .error err
    | .ok rl =>
      let lines3 := lines2 ++ rl
      let os := lookupKey fields "overall_summary".toList
      let lines4 := if truthyOpt os
        then lines3 ++ ["\n## Summary\n".toList ++ pyStr (os.getD .null)]
        else lines3
      .ok (List.intercalate ['\n'] lines4)
  | _ => .error .attributeError

/-- `ProductRanker.generate_comparison_summary` (ranker.py lines
169-216): the whole try-block (product formatting, `json.dumps`, the
messages call, response decoding) is abstracted as `callResult`; on any
failure the method returns the fallback summary — whose own exceptions,
raised inside the `except` handlers, escape. -/
def generate_comparison_summary (rankings : Json)
    (callResult : Except (List Char) (List Char)) : Except PyErr (List Char) :=
  match callResult with
  | .ok s => .ok s
  | .error _ => generate_fallback_summary rankings

/-! ### ProductCrawler (src/backend/src/agents/crawler.py) -/

/-- `dict.setdefault`: keep an existing key, else append. -/
def setdefault (fields : List (List Char × Json)) (k : List Char) (v : Json) :
    List (List Char × Json) :=
  if (lookupKey fields k).isSome then fields else fields ++ [(k, v)]

/-- The enrichment of one product dict (crawler.py lines 217-229):
`source_domain` is assigned, then each expected field is defaulted. -/
def enrichFields (domain : List Char) (fields : List (List Char × Json)) :
    List (List Char × Json) :=
  let f := insertKey fields "source_domain".toList (.str domain)
  let f := setdefault f "name".toList (.str "Unknown Product".toList)
  let f := setdefault f "price".toList .null
  let f := setdefault f "currency".toList (.str "USD".toList)
  let f := setdefault f "url".toList (.str [])
  let f := setdefault f "image_url".toList .null
  let f := setdefault f "rating".toList .null
  let f := setdefault f "review_count".toList .null
  let f := setdefault f "features".toList (.arr [])
  setdefault f "availability".toList (.str "unknown".toList)

/-- Enrichment applied to each parsed element (only dicts are touched). -/
def enrichProduct (domain : List Char) (p : Json) : Json :=
  match p with
  | .obj fields => .obj (enrichFields domain fields)
  | _ => p

/-- `ProductCrawler._parse_extracted_content` (crawler.py lines 169-231):
direct parse, else first fenced block (parse failure caught, `[]`), else
first bracketed-array match (parse failure caught, `[]`); a dict becomes
a one-element list, a non-list is dropped; dict elements are enriched and
non-dict elements are filtered out. -/
def parse_extracted_content (content : Option (List Char)) (domain : List Char) :
    List Json :=
  match content with
  | none => []
  | some c =>
    if c = [] then []
    else
      let parsed : Option Json :=
        match jsonParse c with
        | some v => some v
        | none =>
          match findFencedBlock c with
          | some block => jsonParse (pyStrip block)
          | none =>
            match findArrMatch c with
            | some m => jsonParse m
            | none => none
      match parsed with
      | none => []
      | some v =>
        let plist : List Json :=
          match v with
          | .obj fields => [.obj fields]
          | .arr l => l
          | _ => []
        (plist.map (enrichProduct domain)).filter isObj

/-! ### Crawl records and `ProductCrawler.crawl_urls` -/

/-- `urllib.parse.urlparse(url).netloc`: drop a leading `scheme:`, then
read the authority after `//` up to `/`, `?` or `#` (the sufficient
fragment of urlparse for the URLs the agents build). -/
def netloc (url : List Char) : List Char :=
  let pre := url.takeWhile (fun c => !(c = ':'))
  let rest :=
    if pre.length < url.length &&
       (match pre with
        | c :: cs => c.isAlpha && cs.all (fun d => d.isAlphanum || d = '+' || d = '-' || d = '.')
        | [] => false)
    then url.drop (pre.length + 1) else url
  match rest with
  | '/' :: '/' :: after =>
    after.takeWhile (fun c => !(c = '/') && !(c = '?') && !(c = '#'))
  | _ => []

/-- Outcome of one `crawler.arun` call: either the call raised, or it
returned a result object with a success flag, error message and
extracted content. -/
inductive FetchOutcome where
  | raised (e : List Char)
  | fetched (success : Bool) (errorMessage : Option (List Char))
      (extractedContent : Option (List Char))

/-- One entry of the list `ProductCrawler.crawl_urls` returns
(crawler.py: `{url, domain, success, products, error}`). -/
structure CrawlRecord where
  url : List Char
  domain : List Char
  success : Bool
  products : List Json
  error : Option (List Char)

/-- `ProductCrawler._crawl_single_url` (crawler.py lines 110-167): a
failed fetch or a raised exception yields a failure record with the
reported error (`error_message or "Crawl failed"`) and no products; a
successful fetch parses the extracted content. -/
def crawl_single_url (url : List Char) (o : FetchOutcome) : CrawlRecord :=
  let domain := netloc url
  match o with
  | .raised e => ⟨url, domain, false, [], some e⟩
  | .fetched success em content =>
    if success then
      ⟨url, domain, true, parse_extracted_content content domain, none⟩
    else
      ⟨url, domain, false, [],
       some (match em with
             | some m => if m = [] then "Crawl failed".toList else m
             | none => "Crawl failed".toList)⟩

/-- The `for i, url in enumerate(urls)` loop of `crawl_urls`. -/
def crawl_urls_aux (fetch : Nat → FetchOutcome) : Nat → List (List Char) → List CrawlRecord
  | _, [] => []
  | i, url :: rest => crawl_single_url url (fetch i) :: crawl_urls_aux fetch (i + 1) rest

/-- `ProductCrawler.crawl_urls` (crawler.py lines 72-108): one record per
URL, in order; `fetch i` is the outcome of the i-th `arun` call (the
inter-request sleep has no observable effect on the results). -/
def crawl_urls (urls : List (List Char)) (fetch : Nat → FetchOutcome) : List CrawlRecord :=
  crawl_urls_aux fetch 0 urls

/-! ### Orchestrator data model (the Django rows the pipeline writes) -/

/-- Query status values. -/
inductive QStatus where
  | pending
  | processing
  | completed
  | failed
deriving DecidableEq, Repr

/-- The ProductQuery row (status/error_message/parsed_intent are the
fields the pipeline mutates). -/
structure QueryRec where
  query_text : List Char
  status : QStatus
  error_message : List Char
  parsed_intent : Option Json

/-- A CrawlSession row. -/
structure SessionRec where
  id : Nat
  urls_to_crawl : List (List Char)
  urls_crawled : List (List Char)
  urls_failed : List (List Char × List Char)
  raw_results : List CrawlRecord
  status : List Char
  error_message : List Char

/-- A Product row. -/
structure ProductRow where
  id : Nat
  crawl_session : Nat
  name : List Char
  price : Option ℚ
  currency : List Char
  url : List Char
  source_domain : List Char
  image_url : Json
  raw_data : Json
  features : Json
  llm_score : Option Json
  llm_pros : Json
  llm_cons : Json
  llm_summary : Json

/-- A ComparisonResult row (the ranking-criteria weights are a fixed
constant dict in the source and are omitted as state). -/
structure ComparisonRow where
  id : Nat
  llm_reasoning : Json
  llm_recommendation : List Char

/-- A ProductRanking row (`score_breakdown` fields inlined). -/
structure RankingRow where
  comparison : Nat
  product : Nat
  rank : Nat
  reasoning : Json
  overall_score : Json
  price_value_rating : Json
  pros : Json
  cons : Json

/-- The persisted store visible to one pipeline run (the run operates on
a single ProductQuery; `Query.objects.get` is assumed to find it). -/
structure DB where
  query : QueryRec
  sessions : List SessionRec
  products : List ProductRow
  comparisons : List ComparisonRow
  rankings : List RankingRow

/-- The lighter-weight per-product dict accumulated for ranking
(orchestrator.py lines 279-290). -/
structure PData where
  id : Nat
  name : List Char
  price : Option ℚ
  currency : List Char
  url : List Char
  source_domain : List Char
  rating : Option Json
  review_count : Option Json
  features : Json
  availability : Json

/-! ### Orchestrator stage 4: `_save_products` -/

/-- `float(str(price).replace(",", "").replace("$", ""))` with
`(ValueError, TypeError)` caught → `None` (orchestrator.py lines 258-263);
an absent or `None` price is left as `None`. -/
def normalize_price (v : Option Json) : Option ℚ :=
  match v with
  | none => none
  | some .null => none
  | some jv =>
    pyFloat (((pyStr jv).filter (fun c => !(c = ','))).filter (fun c => !(c = '$')))

/-- The per-product body of `_save_products` (orchestrator.py lines
252-290).  Any exception in it is caught by the surrounding
`except Exception` and the product is skipped; in this model that covers
a non-dict product (`.get`), a truthy non-string url (`urlparse`), and
non-string name/currency values (which cannot be persisted into the
char columns). -/
def save_product_entry_obj (sid : Nat) (pid : Nat) (res : CrawlRecord)
    (fields : List (List Char × Json)) : Except PyErr (ProductRow × PData) :=
    let product_url : Json := (lookupKey fields "url".toList).getD (.str res.url)
    match (if truthy product_url then
             (match product_url with
              | .str s => Except.ok (netloc s)
              | _ => Except.error PyErr.typeError)
           else Except.ok res.domain) with
    | .error e => .error e
    | .ok domain =>
      let price := normalize_price (lookupKey fields "price".toList)
      match (lookupKey fields "name".toList).getD (.str "Unknown Product".toList) with
      | .str nameS =>
        match (lookupKey fields "currency".toList).getD (.str "USD".toList) with
        | .str curS =>
          let urlS : List Char :=
            if truthy product_url then
              (match product_url with | .str s => s.take 1000 | _ => [])
            else []
          let domainS := if domain = [] then "unknown".toList else domain.take 255
          let row : ProductRow :=
            { id := pid, crawl_session := sid, name := nameS.take 500, price := price,
              currency := curS.take 3, url := urlS, source_domain := domainS,
              image_url := (lookupKey fields "image_url".toList).getD (.str []),
              raw_data := .obj fields,
              features := (lookupKey fields "features".toList).getD (.arr []),
              llm_score := none, llm_pros := .arr [], llm_cons := .arr [],
              llm_summary := .str [] }
          let pdata : PData :=
            { id := pid, name := row.name,
              price := (match row.price with
                        | some q => if q = 0 then none else some q
                        | none => none),
              currency := row.currency, url := row.url, source_domain := row.source_domain,
              rating := lookupKey fields "rating".toList,
              review_count := lookupKey fields "review_count".toList,
              features := row.features,
              availability := (lookupKey fields "availability".toList).getD
                (.str "unknown".toList) }
          .ok (row, pdata)
        | _ => .error .typeError
      | _ => .error .typeError

/-- The per-product body of `_save_products`: a non-dict product record
has no `.get` (`AttributeError`, caught and skipped). -/
def save_product_entry (sid : Nat) (pid : Nat) (res : CrawlRecord) (pd : Json) :
    Except PyErr (ProductRow × PData) :=
  match pd with
  | .obj fields => save_product_entry_obj sid pid res fields
  | _ => .error .attributeError

/-- `_save_products` over the raw results (orchestrator.py lines
243-299): unsuccessful results are skipped wholesale; failed product
saves are logged and skipped. -/
def save_products_list (sid : Nat) (startId : Nat) (results : List CrawlRecord) :
    List ProductRow × List PData :=
  results.foldl
    (fun acc res =>
      if !res.success then acc
      else
        res.products.foldl
          (fun acc2 pd =>
            match save_product_entry sid (startId + acc2.1.length) res pd with
            | .ok (row, pdata) => (acc2.1 ++ [row], acc2.2 ++ [pdata])
            | .error _ => acc2)
          acc)
    ([], [])

/-! ### Orchestrator stage 6: `_save_comparison` -/

/-- Python list indexing with negative-index support; `none` models
`IndexError`. -/
def pyListGet {α : Type} (l : List α) (i : ℤ) : Option α :=
  if 0 ≤ i then l.get? i.toNat
  else if -(l.length : ℤ) ≤ i then l.get? (l.length - (-i).toNat)
  else none

/-- `rank_info.get("product_index", rank_idx - 1)` as a Python int
(orchestrator.py line 364): a non-dict entry has no `.get`
(`AttributeError`); a non-int index fails at the comparison with
`len(products)` or at the list indexing (`TypeError`); bools are ints. -/
def entryIndex (rank_idx : Nat) (e : Json) : Except PyErr ℤ :=
  match e with
  | .obj fields =>
    match lookupKey fields "product_index".toList with
    | none => .ok ((rank_idx : ℤ) - 1)
    | some (.num q false) => if q.den = 1 then .ok q.num else .error .typeError
    | some (.bool b) => .ok (if b then 1 else 0)
    | some _ => .error .typeError
  | _ => .error .attributeError

/-- The LLM-enrichment update applied to the matched Product row
(orchestrator.py lines 371-378). -/
def applyRankUpdate (fields : List (List Char × Json)) (r : ProductRow) : ProductRow :=
  { r with
    llm_score := lookupKey fields "score".toList,
    llm_pros := (lookupKey fields "pros".toList).getD (.arr []),
    llm_cons := (lookupKey fields "cons".toList).getD (.arr []),
    llm_summary := (lookupKey fields "reasoning".toList).getD (.str []) }

/-- The ProductRanking row created for one entry (orchestrator.py lines
381-394). -/
def mkRankingRow (cid : Nat) (productId : Nat) (rank_idx : Nat)
    (fields : List (List Char × Json)) : RankingRow :=
  { comparison := cid, product := productId, rank := rank_idx,
    reasoning := (lookupKey fields "reasoning".toList).getD (.str []),
    overall_score := (lookupKey fields "score".toList).getD (.num 0 false),
    price_value_rating := (lookupKey fields "price_value_rating".toList).getD
      (.str "unknown".toList),
    pros := (lookupKey fields "pros".toList).getD (.arr []),
    cons := (lookupKey fields "cons".toList).getD (.arr []) }

/-- One iteration of the rankings loop (orchestrator.py lines 361-401):
every exception (`AttributeError`/`TypeError`/`IndexError`/
`Product.DoesNotExist`) is caught and the entry is skipped; an entry
whose `product_index` is not below `len(products)` is silently skipped
by the `if`. -/
def save_comparison_entry (cid : Nat) (products : List PData)
    (productIds : List Nat) (rank_idx : Nat) (e : Json) : Option (Nat × RankingRow) :=
  match entryIndex rank_idx e with
  | .error _ => none
  | .ok pi =>
    if pi < (products.length : ℤ) then
      match pyListGet products pi with
      | none => none
      | some pdata =>
        if productIds.contains pdata.id then
          match e with
          | .obj fields => some (pdata.id, mkRankingRow cid pdata.id rank_idx fields)
          | _ => none
        else none
    else none

/-- The in-place update of the matched Product row (a row keeps its id;
only the llm fields change). -/
def rankUpdateFun (e : Json) (pidId : Nat) (r : ProductRow) : ProductRow :=
  if r.id = pidId then
    (match e with | .obj fields => applyRankUpdate fields r | _ => r)
  else r

/-- The rankings loop, threading the Product-row updates.  Returns the
updated product rows and the created ProductRanking rows. -/
def rankLoop (cid : Nat) (products : List PData) :
    Nat → List ProductRow → List Json → List ProductRow × List RankingRow
  | _, dbProds, [] => (dbProds, [])
  | rank_idx, dbProds, e :: rest =>
    match save_comparison_entry cid products (dbProds.map (·.id)) rank_idx e with
    | some (pidId, row) =>
      let dbProds' := dbProds.map (rankUpdateFun e pidId)
      let (dps, rows) := rankLoop cid products (rank_idx + 1) dbProds' rest
      (dps, row :: rows)
    | none => rankLoop cid products (rank_idx + 1) dbProds rest

/-- `BuySmartOrchestrator._save_comparison` (orchestrator.py lines
324-404).  The ComparisonResult row is created first; then the rankings
value (`ranking_result.get("rankings", [])`) is enumerated from 1.
Iterating a string or dict value yields non-dict items, each skipped
inside the loop; enumerating a number/bool/None raises (uncaught).  A
non-dict `ranking_result` fails at the first `.get` (uncaught). -/
def save_comparison (db : DB) (products : List PData) (ranking_result : Json) :
    Except PyErr (DB × Nat) :=
  match ranking_result with
  | .obj fields =>
    let cid := db.comparisons.length
    let comp : ComparisonRow :=
      { id := cid,
        llm_reasoning := (lookupKey fields "overall_summary".toList).getD (.str []),
        llm_recommendation :=
          "Best Overall: ".toList
            ++ pyStr ((lookupKey fields "best_overall".toList).getD (.str "N/A".toList))
            ++ "\nBest Value: ".toList
            ++ pyStr ((lookupKey fields "best_value".toList).getD (.str "N/A".toList)) }
    let db1 := { db with comparisons := db.comparisons ++ [comp] }
    match (match (lookupKey fields "rankings".toList).getD (.arr []) with
           | .arr l => Except.ok l
           | .str s => Except.ok (s.map (fun c => Json.str [c]))
           | .obj f => Except.ok (f.map (fun kv : List Char × Json => Json.str kv.1))
           | _ => Except.error PyErr.typeError) with
    | .error err => .error err
    | .ok entries =>
      let (prods', rows) := rankLoop cid products 1 db1.products entries
      .ok ({ db1 with products := prods', rankings := db1.rankings ++ rows }, cid)
  | _ => .error .attributeError

/-! ### The pipeline (`BuySmartOrchestrator.run_pipeline`) -/

/-- Rough `str(e)` of a modelled Python runtime exception (only its
presence, not its wording, is ever asserted). -/
def pyErrText : PyErr → List Char
  | .jsonDecode => "JSONDecodeError".toList
  | .valueError => "ValueError".toList
  | .typeError => "TypeError".toList
  | .attributeError => "AttributeError".toList

/-- The external effects one pipeline run consumes: the parse-stage LLM
call (`QueryParser.parse_query`, returning the parsed intent or the text
of the exception it raised), the `crawler.crawl_urls` call (either a
per-URL outcome function or a raised exception), the ranking LLM call,
and the summary-stage try-block. -/
structure PipelineEnv where
  parseResp : Except (List Char) Json
  crawlCall : Except (List Char) (Nat → FetchOutcome)
  rankResp : Except (List Char) (List Char)
  summaryCall : Except (List Char) (List Char)

/-- The dict `run_pipeline` returns (orchestrator.py lines 125-134 on
success, 142-147 on failure; absent keys are `none`). -/
structure Payload where
  query_id : List Char
  status : List Char
  error : Option (List Char)
  products_found : Nat
  comparison_id : Option Nat
  summary : Option Json
  rankings : Option Json
  best_overall : Option Json
  best_value : Option Json

/-- Stage 7 (`_generate_summary`, orchestrator.py lines 406-433): any
exception of the summary call is recovered with
`ranking_result.get("overall_summary", "Comparison completed
successfully.")`; the ranking result is a dict whenever this stage is
reached. -/
def generate_summary_stage (ranking_result : Json)
    (call : Except (List Char) (List Char)) : Json :=
  match generate_comparison_summary ranking_result call with
  | .ok s => .str s
  | .error _ =>
    (dictGet ranking_result "overall_summary".toList).getD
      (.str "Comparison completed successfully.".toList)

/-- The try-body of `run_pipeline` (orchestrator.py lines 80-134):
stages 1-7 in order, threading every persisted write; the second
component is the success payload or the text of the first exception. -/
def pipelineBody (env : PipelineEnv) (db : DB) (query_id : List Char) :
    DB × Except (List Char) Payload :=
  let db := { db with query := { db.query with status := .processing } }
  match env.parseResp with
  | .error e => (db, .error e)
  | .ok intent =>
    let db := { db with query := { db.query with parsed_intent := some intent } }
    match generate_search_urls intent with
    | .error pe => (db, .error (pyErrText pe))
    | .ok urls =>
      if urls.isEmpty then
        (db, .error "No search URLs generated from parsed intent.".toList)
      else
        let sid := db.sessions.length
        match env.crawlCall with
        | .error e =>
          let session : SessionRec :=
            { id := sid, urls_to_crawl := urls, urls_crawled := [], urls_failed := [],
              raw_results := [], status := "failed".toList, error_message := e }
          ({ db with sessions := db.sessions ++ [session] }, .error e)
        | .ok fetch =>
          let records := crawl_urls urls fetch
          let session : SessionRec :=
            { id := sid, urls_to_crawl := urls,
              urls_crawled := (records.filter (·.success)).map (·.url),
              urls_failed := (records.filter (fun r => !r.success)).map
                (fun r => (r.url, r.error.getD "Unknown error".toList)),
              raw_results := records, status := "completed".toList, error_message := [] }
          let db := { db with sessions := db.sessions ++ [session] }
          let saved := save_products_list sid db.products.length records
          let db := { db with products := db.products ++ saved.1 }
          let pdata := saved.2
          if pdata.isEmpty then
            (db, .error
              "No products were extracted from crawling. Try refining your search query.".toList)
          else
            match rank_products pdata env.rankResp with
            | .error e => (db, .error e)
            | .ok rr =>
              match save_comparison db pdata rr with
              | .error pe => (db, .error (pyErrText pe))
              | .ok (db', cid) =>
                let summary := generate_summary_stage rr env.summaryCall
                let db'' := { db' with query := { db'.query with status := .completed } }
                (db'',
                 .ok { query_id := query_id, status := "completed".toList, error := none,
                       products_found := pdata.length, comparison_id := some cid,
                       summary := some summary,
                       rankings := some ((dictGet rr "rankings".toList).getD (.arr [])),
                       best_overall := dictGet rr "best_overall".toList,
                       best_value := dictGet rr "best_value".toList })

/-- `BuySmartOrchestrator._handle_pipeline_error` (orchestrator.py lines
435-451): mark the query failed and record the error text. -/
def handle_pipeline_error (db : DB) (error_message : List Char) : DB :=
  { db with query := { db.query with status := .failed, error_message := error_message } }

/-- The failure payload of orchestrator.py lines 142-147. -/
def failurePayload (query_id e : List Char) : Payload :=
  { query_id := query_id, status := "failed".toList, error := some e,
    products_found := 0, comparison_id := none, summary := none,
    rankings := none, best_overall := none, best_value := none }

/-- `BuySmartOrchestrator.run_pipeline` (orchestrator.py lines 59-147):
the try-body, with `except Exception` routing any stage failure through
`_handle_pipeline_error` and the failure payload. -/
def run_pipeline (env : PipelineEnv) (db : DB) (query_id : List Char) : DB × Payload :=
  match pipelineBody env db query_id with
  | (db', .ok p) => (db', p)
  | (db', .error e) => (handle_pipeline_error db' e, failurePayload query_id e)

/-! ### Shared lemmas and claim theorems -/

/-- A fetch outcome the crawler records as a failure. -/
def isFailing : FetchOutcome → Bool
  | .raised _ => true
  | .fetched s _ _ => !s

/-- The error text `_crawl_single_url` stores for a failing outcome
(`crawl_result.error_message or "Crawl failed"`, or the stringified
exception). -/
def reportedError : FetchOutcome → List Char
  | .raised e => e
  | .fetched _ em _ =>
    match em with
    | some m => if m = [] then "Crawl failed".toList else m
    | none => "Crawl failed".toList

theorem crawl_single_url_failing (url : List Char) (o : FetchOutcome)
    (hf : isFailing o = true) :
    crawl_single_url url o =
      ⟨url, netloc url, false, [], some (reportedError o)⟩ := by
  cases o with
  | raised e => rfl
  | fetched s em c =>
    cases s with
    | true => simp [isFailing] at hf
    | false => simp [crawl_single_url, reportedError]

theorem crawl_urls_aux_length (fetch : Nat → FetchOutcome) :
    ∀ (urls : List (List Char)) (k : Nat), (crawl_urls_aux fetch k urls).length = urls.length := by
  intro urls
  induction urls with
  | nil => intro k; rfl
  | cons u rest ih => intro k; simp [crawl_urls_aux, ih]

theorem crawl_urls_aux_get (fetch : Nat → FetchOutcome) :
    ∀ (urls : List (List Char)) (k i : Nat) (u : List Char), urls.get? i = some u →
      (crawl_urls_aux fetch k urls).get? i = some (crawl_single_url u (fetch (k + i))) := by
  intro urls
  induction urls with
  | nil => intro k i u h; simp at h
  | cons v rest ih =>
    intro k i u h
    cases i with
    | zero => simp at h; subst h; simp [crawl_urls_aux]
    | succ j =>
      simp only [List.get?_cons_succ] at h
      have := ih (k + 1) j u h
      simpa [crawl_urls_aux, Nat.add_assoc, Nat.add_comm 1 j] using this

theorem crawl_urls_aux_countP (fetch : Nat → FetchOutcome) :
    ∀ (urls : List (List Char)) (k : Nat),
      (crawl_urls_aux fetch k urls).countP (fun r => r.success)
        + (List.range urls.length).countP (fun i => isFailing (fetch (k + i)))
        = urls.length := by
  intro urls
  induction urls with
  | nil => intro k; rfl
  | cons u rest ih =>
    intro k
    have hrange : List.range (rest.length + 1) = 0 :: (List.range rest.length).map Nat.succ :=
      List.range_succ_eq_map rest.length
    have hmap : (List.range rest.length).countP ((fun i => isFailing (fetch (k + i))) ∘ Nat.succ)
        = (List.range rest.length).countP (fun i => isFailing (fetch (k + 1 + i))) := by
      apply List.countP_congr
      intro a _
      have : k + (a + 1) = k + 1 + a := by omega
      simp [Function.comp, this]
    have hsucc : crawl_urls_aux fetch k (u :: rest)
        = crawl_single_url u (fetch k) :: crawl_urls_aux fetch (k + 1) rest := rfl
    have hrec : (crawl_single_url u (fetch k)).success = !isFailing (fetch k) := by
      cases hfk : fetch k with
      | raised e => simp [crawl_single_url, isFailing]
      | fetched s em c => cases s <;> simp [crawl_single_url, isFailing]
    rw [hsucc]
    simp only [List.length_cons, hrange, List.countP_cons, List.countP_map, hmap]
    have := ih (k + 1)
    cases hfk : isFailing (fetch k) <;> simp [hrec, hfk] <;> omega

/-- C2: a crawl batch of M URLs returns exactly one record per URL in
input order; with K failing fetch outcomes, exactly M−K records have
success=true; each failing URL's record carries success=false, the
reported error, and an empty product list; no failure aborts the rest of
the batch (every index still has its record). -/
theorem C2_crawl_batch (urls : List (List Char)) (fetch : Nat → FetchOutcome) :
    (crawl_urls urls fetch).length = urls.length
    ∧ (∀ i u, urls.get? i = some u →
        (crawl_urls urls fetch).get? i = some (crawl_single_url u (fetch i)))
    ∧ (crawl_urls urls fetch).countP (fun r => r.success)
        + (List.range urls.length).countP (fun i => isFailing (fetch i)) = urls.length
    ∧ (∀ i u, urls.get? i = some u → isFailing (fetch i) = true →
        (crawl_urls urls fetch).get? i =
          some ⟨u, netloc u, false, [], some (reportedError (fetch i))⟩) := by
  refine ⟨crawl_urls_aux_length fetch urls 0, ?_, ?_, ?_⟩
  · intro i u h
    simpa using crawl_urls_aux_get fetch urls 0 i u h
  · simpa using crawl_urls_aux_countP fetch urls 0
  · intro i u h hf
    have h2 := crawl_urls_aux_get fetch urls 0 i u h
    simp only [Nat.zero_add] at h2
    rw [crawl_single_url_failing u (fetch i) hf] at h2
    simpa using h2

/-- Concrete two-URL batch whose second fetch raises. -/
def C2urls : List (List Char) := ["https://a.example/x".toList, "https://b.example/y".toList]

/-- Concrete fetch outcomes for the witness batch. -/
def C2fetch : Nat → FetchOutcome := fun i =>
  if i = 0 then .fetched true none (some "[]".toList) else .raised "boom".toList

/-- Witness for C2 at a concrete two-URL batch with one failure. -/
theorem C2_crawl_batch_witness :
    (crawl_urls C2urls C2fetch).length = C2urls.length
    ∧ (crawl_urls C2urls C2fetch).get? 0
        = some (crawl_single_url "https://a.example/x".toList (C2fetch 0))
    ∧ (crawl_urls C2urls C2fetch).countP (fun r => r.success)
        + (List.range C2urls.length).countP (fun i => isFailing (C2fetch i)) = C2urls.length
    ∧ (crawl_urls C2urls C2fetch).get? 1 =
        some ⟨"https://b.example/y".toList, netloc "https://b.example/y".toList,
              false, [], some (reportedError (C2fetch 1))⟩ :=
  ⟨(C2_crawl_batch C2urls C2fetch).1,
   (C2_crawl_batch C2urls C2fetch).2.1 0 "https://a.example/x".toList rfl,
   (C2_crawl_batch C2urls C2fetch).2.2.1,
   (C2_crawl_batch C2urls C2fetch).2.2.2 1 "https://b.example/y".toList rfl (by decide)⟩

/-- The adjacent marketplace pair emitted per phrase. -/
def marketPair (q : List Char) : List (List Char) := [amazonUrl q, bestbuyUrl q]

theorem buildSearchUrls_strings :
    ∀ qs : List (List Char),
      buildSearchUrls (qs.map Json.str) = .ok (qs.flatMap marketPair) := by
  intro qs
  induction qs with
  | nil => rfl
  | cons q rest ih => simp [buildSearchUrls, marketPair, ih, Except.map]

theorem flatMap_marketPair_length :
    ∀ qs : List (List Char), (qs.flatMap marketPair).length = 2 * qs.length := by
  intro qs
  induction qs with
  | nil => rfl
  | cons q rest ih => simp [marketPair, ih]; omega

theorem flatMap_marketPair_get :
    ∀ (qs : List (List Char)) (i : Nat) (q : List Char), qs.get? i = some q →
      (qs.flatMap marketPair).get? (2 * i) = some (amazonUrl q)
      ∧ (qs.flatMap marketPair).get? (2 * i + 1) = some (bestbuyUrl q) := by
  intro qs
  induction qs with
  | nil => intro i q h; simp at h
  | cons p rest ih =>
    intro i q h
    cases i with
    | zero => simp at h; subst h; constructor <;> rfl
    | succ j =>
      simp only [List.get?_cons_succ] at h
      have h2 := ih j q h
      have e1 : 2 * (j + 1) = (2 * j) + 1 + 1 := by omega
      have e2 : 2 * j + 1 + 1 + 1 = (2 * j + 1) + 1 + 1 := by omega
      rw [e1, e2]
      simpa [marketPair] using h2

/-- C9: with a non-empty `search_queries` list of phrases, the generated
URL list is exactly the first (at most 5) phrases, each contributing its
Amazon URL immediately followed by its Best Buy URL, in phrase order —
hence 2·min(5, N) URLs, never more than 10. -/
theorem C9_generate_search_urls (fields : List (List Char × Json)) (qs : List (List Char))
    (hsq : lookupKey fields "search_queries".toList = some (.arr (qs.map Json.str)))
    (hne : qs ≠ []) :
    generate_search_urls (.obj fields) = .ok ((qs.take 5).flatMap marketPair)
    ∧ ((qs.take 5).flatMap marketPair).length = 2 * min 5 qs.length
    ∧ ((qs.take 5).flatMap marketPair).length ≤ 10
    ∧ (∀ i q, (qs.take 5).get? i = some q →
        ((qs.take 5).flatMap marketPair).get? (2 * i) = some (amazonUrl q)
        ∧ ((qs.take 5).flatMap marketPair).get? (2 * i + 1) = some (bestbuyUrl q)) := by
  have hmain : generate_search_urls (.obj fields) = .ok ((qs.take 5).flatMap marketPair) := by
    have hq : qs.map Json.str ≠ [] := by
      intro hcon
      exact hne (List.map_eq_nil_iff.mp hcon)
    simp only [generate_search_urls, hsq, Option.getD_some]
    rw [if_neg]
    · rw [← List.map_take]
      exact buildSearchUrls_strings (qs.take 5)
    · simp [truthy, List.isEmpty_iff, hq]
  refine ⟨hmain, ?_, ?_, ?_⟩
  · rw [flatMap_marketPair_length, List.length_take]
  · rw [flatMap_marketPair_length, List.length_take]; omega
  · intro i q h; exact flatMap_marketPair_get (qs.take 5) i q h

/-- Six concrete search phrases (one more than the cap). -/
def C9qs : List (List Char) :=
  ["wireless mouse".toList, "gaming mouse".toList, "mouse".toList,
   "best mouse".toList, "cheap mouse".toList, "extra phrase".toList]

/-- Concrete parsed-intent fields for the witness. -/
def C9fields : List (List Char × Json) :=
  [("search_queries".toList, .arr (C9qs.map Json.str))]

/-- Witness for C9 at six phrases (only the first five are used). -/
theorem C9_generate_search_urls_witness :
    generate_search_urls (.obj C9fields) = .ok ((C9qs.take 5).flatMap marketPair)
    ∧ ((C9qs.take 5).flatMap marketPair).length = 2 * min 5 C9qs.length
    ∧ ((C9qs.take 5).flatMap marketPair).length ≤ 10
    ∧ (((C9qs.take 5).flatMap marketPair).get? 2 = some (amazonUrl "gaming mouse".toList)
       ∧ ((C9qs.take 5).flatMap marketPair).get? 3 = some (bestbuyUrl "gaming mouse".toList)) :=
  ⟨(C9_generate_search_urls C9fields C9qs rfl (by decide)).1,
   (C9_generate_search_urls C9fields C9qs rfl (by decide)).2.1,
   (C9_generate_search_urls C9fields C9qs rfl (by decide)).2.2.1,
   (C9_generate_search_urls C9fields C9qs rfl (by decide)).2.2.2 1 "gaming mouse".toList rfl⟩

theorem enrich_filter_comm (domain : List Char) :
    ∀ plist : List Json,
      (plist.map (enrichProduct domain)).filter isObj
        = (plist.filter isObj).map (enrichProduct domain) := by
  intro plist
  induction plist with
  | nil => rfl
  | cons p rest ih => cases p <;> simp [enrichProduct, isObj, ih]

/-- C10: `_parse_extracted_content` returns only dicts: `None` and the
empty string yield `[]`; when the content parses directly to a JSON
array, non-dict elements are silently dropped and the dict elements are
kept (enriched) in their original order. -/
theorem C10_parse_extracted_content :
    (∀ domain, parse_extracted_content none domain = [])
    ∧ (∀ domain, parse_extracted_content (some []) domain = [])
    ∧ (∀ content domain j, j ∈ parse_extracted_content content domain → isObj j = true)
    ∧ (∀ c elems domain, jsonParse c = some (.arr elems) →
        parse_extracted_content (some c) domain
          = (elems.filter isObj).map (enrichProduct domain)) := by
  refine ⟨fun _ => rfl, fun _ => rfl, ?_, ?_⟩
  · intro content domain j hj
    simp only [parse_extracted_content] at hj
    repeat' split at hj
    all_goals try simp at hj
    all_goals exact hj.2
  · intro c elems domain h
    have hc : c ≠ [] := by
      intro e
      subst e
      have h0 : jsonParse ([] : List Char) = none := rfl
      rw [h0] at h
      cases h
    simp only [parse_extracted_content, if_neg hc, h]
    exact enrich_filter_comm domain elems

/-- Concrete extracted content: an array mixing a number, a dict, a
string and null. -/
def C10content : List Char :=
  "[1, ".toList ++ lbrace :: "\"name\": \"A\"".toList ++ rbrace :: ", \"s\", null]".toList

/-- Its parse, element by element. -/
def C10elems : List Json :=
  [.num 1 false, .obj [("name".toList, .str "A".toList)], .str "s".toList, .null]

/-- Witness for C10: the mixed array keeps exactly its dict element. -/
theorem C10_parse_extracted_content_witness :
    parse_extracted_content none "www.x.com".toList = []
    ∧ parse_extracted_content (some []) "www.x.com".toList = []
    ∧ isObj (enrichProduct "www.x.com".toList (.obj [("name".toList, .str "A".toList)])) = true
    ∧ parse_extracted_content (some C10content) "www.x.com".toList
        = (C10elems.filter isObj).map (enrichProduct "www.x.com".toList) :=
  ⟨C10_parse_extracted_content.1 "www.x.com".toList,
   C10_parse_extracted_content.2.1 "www.x.com".toList,
   C10_parse_extracted_content.2.2.1 (some C10content) "www.x.com".toList
     (enrichProduct "www.x.com".toList (.obj [("name".toList, .str "A".toList)]))
     (by
       have h : parse_extracted_content (some C10content) "www.x.com".toList
           = [enrichProduct "www.x.com".toList (.obj [("name".toList, .str "A".toList)])] := by
         with_unfolding_all rfl
       rw [h]
       exact List.mem_singleton_self _),
   C10_parse_extracted_content.2.2.2 C10content C10elems "www.x.com".toList
     (by with_unfolding_all rfl)⟩

/-- C6: `"$1,299.00"` normalizes to 1299; `"N/A"` normalizes to `None`;
and for any price value at all (with the other string fields
well-formed), `_save_products`' per-product body still persists the row,
carrying the normalized price — an unparseable price never fails the
save. -/
theorem C6_price_normalization :
    normalize_price (some (.str "$1,299.00".toList)) = some (1299 : ℚ)
    ∧ normalize_price (some (.str "N/A".toList)) = none
    ∧ (∀ (sid pid : Nat) (res : CrawlRecord) (fields : List (List Char × Json)),
        (lookupKey fields "url".toList = none ∨ lookupKey fields "url".toList = some .null
          ∨ ∃ s, lookupKey fields "url".toList = some (.str s)) →
        (lookupKey fields "name".toList = none
          ∨ ∃ s, lookupKey fields "name".toList = some (.str s)) →
        (lookupKey fields "currency".toList = none
          ∨ ∃ s, lookupKey fields "currency".toList = some (.str s)) →
        ∃ row pdata, save_product_entry sid pid res (.obj fields) = .ok (row, pdata)
          ∧ row.price = normalize_price (lookupKey fields "price".toList)) := by
  refine ⟨by with_unfolding_all rfl, by with_unfolding_all rfl, ?_⟩
  intro sid pid res fields hurl hname hcur
  have hdom : ∃ dom,
      (if truthy ((lookupKey fields "url".toList).getD (.str res.url)) then
         (match (lookupKey fields "url".toList).getD (.str res.url) with
          | .str s => Except.ok (netloc s)
          | _ => Except.error PyErr.typeError)
       else Except.ok res.domain) = Except.ok dom := by
    rcases hurl with h | h | ⟨us, h⟩ <;> rw [h] <;> simp only [Option.getD_some, Option.getD_none]
    · by_cases ht : truthy (.str res.url) <;> simp [ht]
    · simp [truthy]
    · by_cases ht : truthy (.str us) <;> simp [ht]
  obtain ⟨dom, hdom⟩ := hdom
  rcases hname with hname | ⟨ns, hname⟩ <;> rcases hcur with hcur | ⟨cs, hcur⟩ <;>
    · simp only [save_product_entry, save_product_entry_obj, hdom, hname, hcur,
        Option.getD_some, Option.getD_none]
      exact ⟨_, _, rfl, rfl⟩

/-- Concrete crawl record and product fields for the C6 witness. -/
def C6res : CrawlRecord :=
  ⟨"https://www.amazon.com/s?k=x".toList, "www.amazon.com".toList, true, [], none⟩

/-- Product fields whose price is the unparseable string `N/A`. -/
def C6fields : List (List Char × Json) :=
  [("name".toList, .str "Widget".toList), ("price".toList, .str "N/A".toList),
   ("url".toList, .str "https://www.amazon.com/widget".toList)]

/-- Witness for C6: the `N/A`-priced product is still persisted. -/
theorem C6_price_normalization_witness :
    normalize_price (some (.str "$1,299.00".toList)) = some (1299 : ℚ)
    ∧ normalize_price (some (.str "N/A".toList)) = none
    ∧ ∃ row pdata, save_product_entry 0 0 C6res (.obj C6fields) = .ok (row, pdata)
        ∧ row.price = normalize_price (lookupKey C6fields "price".toList) :=
  ⟨C6_price_normalization.1, C6_price_normalization.2.1,
   C6_price_normalization.2.2 0 0 C6res C6fields
     (Or.inr (Or.inr ⟨"https://www.amazon.com/widget".toList, rfl⟩))
     (Or.inr ⟨"Widget".toList, rfl⟩) (Or.inl rfl)⟩

/-- C5: a ranking result whose entries carry pairwise-distinct
(numeric-or-absent) scores comes out of `rank_products` strictly
descending by score whatever order the LLM emitted, with an absent score
keyed as 0; the sorted list is a permutation of the extracted one. -/
theorem C5_rank_sorted (products : List PData) (raw : List Char)
    (fields : List (List Char × Json)) (entries : List Json)
    (hp : products ≠ [])
    (hx : extract_json_ranker raw = .ok (.obj fields))
    (hr : lookupKey fields "rankings".toList = some (.arr entries))
    (hok : ∀ e ∈ entries, scoreKeyOk e = true)
    (hdist : entries.Pairwise (fun a b => scoreKey a ≠ scoreKey b)) :
    ∃ entries',
      rank_products products (.ok raw)
          = .ok (.obj (insertKey fields "rankings".toList (.arr entries')))
      ∧ entries'.Perm entries
      ∧ entries'.Pairwise (fun a b => scoreKey b < scoreKey a)
      ∧ (∀ e, dictGet e "score".toList = none → scoreKey e = 0) := by
  have hall : entries.all scoreKeyOk = true := List.all_eq_true.mpr hok
  have hempty : products.isEmpty = false := by
    cases products with
    | nil => exact absurd rfl hp
    | cons a l => rfl
  refine ⟨entries.mergeSort (fun a b => decide (scoreKey b ≤ scoreKey a)), ?_, ?_, ?_, ?_⟩
  · simp only [rank_products, hempty, Bool.false_eq_true, if_false, hx,
      sortRankingsStep, hr, sortRankingsList, hall, if_true, Except.map]
  · exact List.mergeSort_perm entries _
  · have hsorted := @List.sorted_mergeSort Json
      (fun a b => decide (scoreKey b ≤ scoreKey a))
      (fun a b c hab hbc => by
        simp only [decide_eq_true_eq] at *
        exact le_trans hbc hab)
      (fun a b => by
        simp only [Bool.or_eq_true, decide_eq_true_eq]
        exact le_total (scoreKey b) (scoreKey a))
      entries
    have hdist' : (entries.mergeSort (fun a b => decide (scoreKey b ≤ scoreKey a))).Pairwise
        (fun a b => scoreKey a ≠ scoreKey b) :=
      ((List.mergeSort_perm entries _).pairwise_iff
        (fun {_ _} h => Ne.symm h)).mpr hdist
    have := hsorted.and hdist'
    exact this.imp (fun h => lt_of_le_of_ne (by simpa using h.1) (Ne.symm h.2))
  · intro e he
    have he' : dictGet e ['s', 'c', 'o', 'r', 'e'] = none := he
    simp [scoreKey, he']

/-- Concrete ranking entries with distinct scores (one score absent). -/
def C5entryA : Json := .obj [("product_name".toList, .str "a".toList), ("score".toList, .num 40 false)]

/-- Entry with the highest score. -/
def C5entryB : Json := .obj [("product_name".toList, .str "b".toList), ("score".toList, .num 85 false)]

/-- Entry with no score field (keyed as 0). -/
def C5entryC : Json := .obj [("product_name".toList, .str "c".toList)]

/-- The three entries in non-sorted arrival order. -/
def C5entries : List Json := [C5entryA, C5entryB, C5entryC]

/-- The extracted ranking-result fields. -/
def C5fields : List (List Char × Json) :=
  [("rankings".toList, .arr C5entries), ("best_overall".toList, .str "b".toList)]

/-- The raw LLM text the ranker extracts the result from. -/
def C5raw : List Char :=
  lbrace :: "\"rankings\": [".toList
    ++ (lbrace :: "\"product_name\": \"a\", \"score\": 40".toList ++ [rbrace])
    ++ ", ".toList
    ++ (lbrace :: "\"product_name\": \"b\", \"score\": 85".toList ++ [rbrace])
    ++ ", ".toList
    ++ (lbrace :: "\"product_name\": \"c\"".toList ++ [rbrace])
    ++ "], \"best_overall\": \"b\"".toList ++ [rbrace]

/-- A one-product input list for the ranking call. -/
def C5pd : PData :=
  { id := 0, name := "p".toList, price := some 5, currency := "USD".toList, url := [],
    source_domain := [], rating := none, review_count := none, features := .arr [],
    availability := .str "unknown".toList }

/-- Witness for C5 at the concrete three-entry ranking. -/
theorem C5_rank_sorted_witness :
    ∃ entries',
      rank_products [C5pd] (.ok C5raw)
          = .ok (.obj (insertKey C5fields "rankings".toList (.arr entries')))
      ∧ entries'.Perm C5entries
      ∧ entries'.Pairwise (fun a b => scoreKey b < scoreKey a)
      ∧ (∀ e, dictGet e "score".toList = none → scoreKey e = 0) :=
  C5_rank_sorted [C5pd] C5raw C5fields C5entries (by simp)
    (by with_unfolding_all rfl) rfl (by decide) (by with_unfolding_all decide)

theorem fallbackLines_ok :
    ∀ elems : List Json, (∀ x ∈ elems, isObj x = true) →
      ∃ ls, fallbackLines elems = .ok ls := by
  intro elems
  induction elems with
  | nil => intro _; exact ⟨[], rfl⟩
  | cons x rest ih =>
    intro h
    have hx := h x (List.mem_cons_self x rest)
    obtain ⟨ls, hls⟩ := ih (fun y hy => h y (List.mem_cons_of_mem x hy))
    cases x <;> simp [isObj] at hx
    exact ⟨_, by simp only [fallbackLines, hls, Except.map]; rfl⟩

/-- C8 (amended): when the summary LLM call fails,
`generate_comparison_summary` returns the deterministic fallback summary
without raising, provided the `rankings` value of the dict, when truthy,
is a list of dicts (for other truthy shapes the fallback itself raises —
see the counterexample). -/
theorem C8_summary_fallback (rankings : Json) (fields : List (List Char × Json))
    (call : Except (List Char) (List Char)) (e : List Char)
    (hcall : call = .error e)
    (hobj : rankings = .obj fields)
    (hshape : ∀ v, lookupKey fields "rankings".toList = some v → truthy v = true →
      ∃ elems, v = .arr elems ∧ ∀ x ∈ elems, isObj x = true) :
    ∃ s, generate_comparison_summary rankings call = .ok s
      ∧ generate_fallback_summary rankings = .ok s := by
  subst hobj
  subst hcall
  have hsec : ∃ rl, fallbackRankSection (lookupKey fields "rankings".toList) = .ok rl := by
    cases hv : lookupKey fields "rankings".toList with
    | none => exact ⟨[], rfl⟩
    | some v =>
      by_cases ht : truthy v
      · obtain ⟨elems, rfl, hall⟩ := hshape v hv ht
        obtain ⟨ls, hls⟩ := fallbackLines_ok elems hall
        exact ⟨_, by simp only [fallbackRankSection, ht, if_true, hls, Except.map]; rfl⟩
      · exact ⟨[], by simp only [fallbackRankSection, ht, Bool.false_eq_true, if_false]⟩
  obtain ⟨rl, hrl⟩ := hsec
  have hfb : ∃ s, generate_fallback_summary (.obj fields) = .ok s :=
    ⟨_, by simp only [generate_fallback_summary, hrl]; rfl⟩
  obtain ⟨s, hs⟩ := hfb
  exact ⟨s, by simpa [generate_comparison_summary] using hs, hs⟩

/-- A rankings dict whose `rankings` value is the (truthy) number 5. -/
def C8bad : Json := .obj [("rankings".toList, .num 5 false)]

/-- Counterexample to C8 as stated: on a failing summary call with this
dict shape, `generate_comparison_summary` does not return a fallback —
iterating the number raises `TypeError` inside the except handler. -/
theorem C8_counterexample :
    generate_comparison_summary C8bad (.error "API down".toList)
      = .error PyErr.typeError := by
  with_unfolding_all rfl

/-- A well-shaped rankings dict for the witness. -/
def C8entry : Json :=
  .obj [("product_name".toList, .str "a".toList), ("score".toList, .num 10 false),
        ("reasoning".toList, .str "solid".toList)]

/-- Witness rankings dict: best_overall set, one list entry, a summary. -/
def C8fields : List (List Char × Json) :=
  [("best_overall".toList, .str "X".toList),
   ("rankings".toList, .arr [C8entry]),
   ("overall_summary".toList, .str "sum".toList)]

/-- Witness for C8 (amended) at a concrete well-shaped dict. -/
theorem C8_summary_fallback_witness :
    ∃ s, generate_comparison_summary (.obj C8fields) (.error "API down".toList) = .ok s
      ∧ generate_fallback_summary (.obj C8fields) = .ok s :=
  C8_summary_fallback (.obj C8fields) C8fields (.error "API down".toList)
    "API down".toList rfl rfl
    (by
      intro v hv ht
      have h2 : Json.arr [C8entry] = v := Option.some.inj hv
      exact ⟨[C8entry], h2.symm, by decide⟩)

/-- C1: any exception in any pipeline stage makes `run_pipeline` skip the
remaining stages, mark the Query failed with the exception text in
`error_message`, and return the failure payload (status "failed", the
error text, products_found 0); in particular, when the ranker's primary
call raises, no ComparisonResult row is created. -/
theorem C1_pipeline_error_handling :
    (∀ (env : PipelineEnv) (db : DB) (query_id : List Char) (db2 : DB) (e : List Char),
      pipelineBody env db query_id = (db2, .error e) →
      run_pipeline env db query_id = (handle_pipeline_error db2 e, failurePayload query_id e)
      ∧ (run_pipeline env db query_id).1.query.status = .failed
      ∧ (run_pipeline env db query_id).1.query.error_message = e
      ∧ (run_pipeline env db query_id).2.status = "failed".toList
      ∧ (run_pipeline env db query_id).2.error = some e
      ∧ (run_pipeline env db query_id).2.products_found = 0)
    ∧ (∀ (env : PipelineEnv) (db : DB) (query_id : List Char) (intent : Json)
        (urls : List (List Char)) (fetch : Nat → FetchOutcome) (e : List Char),
      env.parseResp = .ok intent →
      generate_search_urls intent = .ok urls →
      urls ≠ [] →
      env.crawlCall = .ok fetch →
      (save_products_list db.sessions.length db.products.length
        (crawl_urls urls fetch)).2 ≠ [] →
      env.rankResp = .error e →
      (run_pipeline env db query_id).1.comparisons = db.comparisons
      ∧ (run_pipeline env db query_id).1.rankings = db.rankings
      ∧ (run_pipeline env db query_id).1.query.status = .failed
      ∧ (run_pipeline env db query_id).1.query.error_message = e
      ∧ (run_pipeline env db query_id).2 = failurePayload query_id e) := by
  constructor
  · intro env db qid db2 e h
    have hrun : run_pipeline env db qid = (handle_pipeline_error db2 e, failurePayload qid e) := by
      simp only [run_pipeline, h]
    refine ⟨hrun, ?_, ?_, ?_, ?_, ?_⟩ <;> rw [hrun] <;> rfl
  · intro env db qid intent urls fetch e hp hu hne hc hpd hr
    have hne' : urls.isEmpty = false := by
      cases urls with
      | nil => exact absurd rfl hne
      | cons a l => rfl
    have hpd' : (save_products_list db.sessions.length db.products.length
        (crawl_urls urls fetch)).2.isEmpty = false := by
      cases hsp : (save_products_list db.sessions.length db.products.length
          (crawl_urls urls fetch)).2 with
      | nil => exact absurd hsp hpd
      | cons a l => rfl
    have hsnd : (pipelineBody env db qid).2 = .error e := by
      simp only [pipelineBody, hp, hu, hne', hc, rank_products, hpd', hr,
        Bool.false_eq_true, if_false]
    have hcomp : (pipelineBody env db qid).1.comparisons = db.comparisons := by
      simp only [pipelineBody, hp, hu, hne', hc, rank_products, hpd', hr,
        Bool.false_eq_true, if_false]
    have hrnk : (pipelineBody env db qid).1.rankings = db.rankings := by
      simp only [pipelineBody, hp, hu, hne', hc, rank_products, hpd', hr,
        Bool.false_eq_true, if_false]
    rcases hP : pipelineBody env db qid with ⟨dbX, res⟩
    rw [hP] at hsnd hcomp hrnk
    simp only at hsnd hcomp hrnk
    subst hsnd
    have hrun : run_pipeline env db qid = (handle_pipeline_error dbX e, failurePayload qid e) := by
      simp only [run_pipeline, hP]
    refine ⟨?_, ?_, ?_, ?_, ?_⟩ <;> rw [hrun]
    · exact hcomp
    · exact hrnk
    · rfl
    · rfl

/-- Concrete pending query for the C1 witness. -/
def C1q : QueryRec :=
  { query_text := "buy a laptop".toList, status := .pending, error_message := [],
    parsed_intent := none }

/-- Concrete store holding only that query. -/
def C1db : DB := { query := C1q, sessions := [], products := [], comparisons := [], rankings := [] }

/-- Parsed intent with a single search phrase. -/
def C1intent : Json := .obj [("search_queries".toList, .arr [.str "laptop".toList])]

/-- The URLs stage 2 derives from it. -/
def C1urls : List (List Char) := [amazonUrl "laptop".toList, bestbuyUrl "laptop".toList]

/-- Extracted content with one product dict. -/
def C1content : List Char := '[' :: lbrace :: "\"name\": \"L\"".toList ++ [rbrace, ']']

/-- First URL crawls fine, second raises. -/
def C1fetch : Nat → FetchOutcome := fun i =>
  if i = 0 then .fetched true none (some C1content) else .raised "second down".toList

/-- Environment whose ranking LLM call raises a network error. -/
def C1env : PipelineEnv :=
  { parseResp := .ok C1intent, crawlCall := .ok C1fetch,
    rankResp := .error "network boom".toList, summaryCall := .error "x".toList }

/-- Environment whose parse stage raises. -/
def C1envP : PipelineEnv :=
  { parseResp := .error "parse boom".toList, crawlCall := .error "x".toList,
    rankResp := .error "x".toList, summaryCall := .error "x".toList }

/-- Witness for C1: a parse-stage exception and a ranker-call exception,
each at a concrete query. -/
theorem C1_pipeline_error_handling_witness :
    (run_pipeline C1envP C1db "qid-1".toList
        = (handle_pipeline_error { C1db with query := { C1q with status := .processing } }
            "parse boom".toList,
           failurePayload "qid-1".toList "parse boom".toList)
      ∧ (run_pipeline C1envP C1db "qid-1".toList).1.query.status = .failed
      ∧ (run_pipeline C1envP C1db "qid-1".toList).1.query.error_message = "parse boom".toList
      ∧ (run_pipeline C1envP C1db "qid-1".toList).2.status = "failed".toList
      ∧ (run_pipeline C1envP C1db "qid-1".toList).2.error = some "parse boom".toList
      ∧ (run_pipeline C1envP C1db "qid-1".toList).2.products_found = 0)
    ∧ ((run_pipeline C1env C1db "qid-1".toList).1.comparisons = C1db.comparisons
      ∧ (run_pipeline C1env C1db "qid-1".toList).1.rankings = C1db.rankings
      ∧ (run_pipeline C1env C1db "qid-1".toList).1.query.status = .failed
      ∧ (run_pipeline C1env C1db "qid-1".toList).1.query.error_message = "network boom".toList
      ∧ (run_pipeline C1env C1db "qid-1".toList).2
          = failurePayload "qid-1".toList "network boom".toList) :=
  ⟨C1_pipeline_error_handling.1 C1envP C1db "qid-1".toList
     { C1db with query := { C1q with status := .processing } } "parse boom".toList
     (by with_unfolding_all rfl),
   C1_pipeline_error_handling.2 C1env C1db "qid-1".toList C1intent C1urls C1fetch
     "network boom".toList rfl (by with_unfolding_all rfl) (by simp [C1urls]) rfl
     (by
       have hlen : (save_products_list C1db.sessions.length C1db.products.length
           (crawl_urls C1urls C1fetch)).2.length = 1 := by with_unfolding_all rfl
       intro hcon
       rw [hcon] at hlen
       cases hlen)
     rfl⟩

/-- The ranking rows the loop creates, as a pure function of the product
ids (the Product-row llm-field updates can't change lookups: ids are
preserved). -/
def rowsSpec (cid : Nat) (products : List PData) (ids : List Nat) :
    Nat → List Json → List RankingRow
  | _, [] => []
  | idx, e :: rest =>
    match save_comparison_entry cid products ids idx e with
    | some (_, row) => row :: rowsSpec cid products ids (idx + 1) rest
    | none => rowsSpec cid products ids (idx + 1) rest

theorem rankUpdate_preserves_id (e : Json) (pid : Nat) (r : ProductRow) :
    (rankUpdateFun e pid r).id = r.id := by
  unfold rankUpdateFun
  by_cases h : r.id = pid
  · rw [if_pos h]
    cases e <;> rfl
  · rw [if_neg h]

theorem rankLoop_rows (cid : Nat) (products : List PData) :
    ∀ (entries : List Json) (idx : Nat) (dbProds : List ProductRow),
      (rankLoop cid products idx dbProds entries).2
        = rowsSpec cid products (dbProds.map (fun r => r.id)) idx entries := by
  intro entries
  induction entries with
  | nil => intro idx dbProds; rfl
  | cons e rest ih =>
    intro idx dbProds
    simp only [rankLoop, rowsSpec]
    cases hsc : save_comparison_entry cid products (dbProds.map (fun r => r.id)) idx e with
    | none => exact ih (idx + 1) dbProds
    | some pr =>
      rcases pr with ⟨pid, row⟩
      have hids : (dbProds.map (rankUpdateFun e pid)).map (fun r => r.id)
          = dbProds.map (fun r => r.id) := by
        rw [List.map_map]
        apply List.map_congr_left
        intro r _
        exact rankUpdate_preserves_id e pid r
      simp only [ih (idx + 1) _, hids]

theorem save_comparison_entry_rank (cid : Nat) (products : List PData) (ids : List Nat)
    (idx : Nat) (e : Json) (p : Nat) (row : RankingRow)
    (h : save_comparison_entry cid products ids idx e = some (p, row)) : row.rank = idx := by
  unfold save_comparison_entry at h
  repeat' split at h
  all_goals try cases h
  all_goals simp_all [mkRankingRow]

theorem rowsSpec_rank_bounds (cid : Nat) (products : List PData) (ids : List Nat) :
    ∀ (entries : List Json) (idx : Nat) (r : RankingRow),
      r ∈ rowsSpec cid products ids idx entries →
      idx ≤ r.rank ∧ r.rank < idx + entries.length := by
  intro entries
  induction entries with
  | nil => intro idx r h; cases h
  | cons e rest ih =>
    intro idx r h
    simp only [rowsSpec] at h
    cases hsc : save_comparison_entry cid products ids idx e with
    | none =>
      rw [hsc] at h
      have := ih (idx + 1) r h
      simp only [List.length_cons]
      omega
    | some pr =>
      rcases pr with ⟨pid, row⟩
      rw [hsc] at h
      cases h with
      | head =>
        have := save_comparison_entry_rank cid products ids idx e pid r hsc
        simp only [List.length_cons]
        omega
      | tail _ h2 =>
        have := ih (idx + 1) r h2
        simp only [List.length_cons]
        omega

theorem rowsSpec_sorted (cid : Nat) (products : List PData) (ids : List Nat) :
    ∀ (entries : List Json) (idx : Nat),
      (rowsSpec cid products ids idx entries).Pairwise (fun a b => a.rank < b.rank) := by
  intro entries
  induction entries with
  | nil => intro idx; exact List.Pairwise.nil
  | cons e rest ih =>
    intro idx
    simp only [rowsSpec]
    cases hsc : save_comparison_entry cid products ids idx e with
    | none => exact ih (idx + 1)
    | some pr =>
      rcases pr with ⟨pid, row⟩
      refine List.Pairwise.cons ?_ (ih (idx + 1))
      intro b hb
      have hrank := save_comparison_entry_rank cid products ids idx e pid row hsc
      have hlb := (rowsSpec_rank_bounds cid products ids rest (idx + 1) b hb).1
      omega

theorem rowsSpec_length_le (cid : Nat) (products : List PData) (ids : List Nat) :
    ∀ (entries : List Json) (idx : Nat),
      (rowsSpec cid products ids idx entries).length ≤ entries.length := by
  intro entries
  induction entries with
  | nil => intro idx; exact Nat.le_refl 0
  | cons e rest ih =>
    intro idx
    simp only [rowsSpec]
    cases save_comparison_entry cid products ids idx e with
    | none =>
      have := ih (idx + 1)
      simp only [List.length_cons]
      omega
    | some pr =>
      have := ih (idx + 1)
      simp only [List.length_cons]
      omega

theorem rowsSpec_dense_of_full (cid : Nat) (products : List PData) (ids : List Nat) :
    ∀ (entries : List Json) (idx : Nat),
      (rowsSpec cid products ids idx entries).length = entries.length →
      (rowsSpec cid products ids idx entries).map (fun r => r.rank)
        = List.range' idx entries.length := by
  intro entries
  induction entries with
  | nil => intro idx _; rfl
  | cons e rest ih =>
    intro idx hlen
    simp only [rowsSpec] at hlen ⊢
    cases hsc : save_comparison_entry cid products ids idx e with
    | none =>
      rw [hsc] at hlen
      have := rowsSpec_length_le cid products ids rest (idx + 1)
      simp only [List.length_cons] at hlen
      omega
    | some pr =>
      rcases pr with ⟨pid, row⟩
      rw [hsc] at hlen
      simp only [List.length_cons, List.length_cons] at hlen
      have hrank := save_comparison_entry_rank cid products ids idx e pid row hsc
      simp only [List.map_cons, hrank, List.range']
      rw [ih (idx + 1) (by omega)]

/-- C7 (amended): the ProductRanking rows created by `_save_comparison`
carry strictly increasing (hence unique) rank values, each equal to the
1-based position of its entry in the already-sorted rankings list; the
ranks are the dense block 1..n exactly when no entry was skipped — a
skipped entry leaves a gap at its position (see the counterexample). -/
theorem C7_ranking_rows (db : DB) (products : List PData)
    (fields : List (List Char × Json)) (entries : List Json) (db' : DB) (cid : Nat)
    (hr : lookupKey fields "rankings".toList = some (.arr entries))
    (hs : save_comparison db products (.obj fields) = .ok (db', cid)) :
    ∃ rows, db'.rankings = db.rankings ++ rows
      ∧ rows = rowsSpec (db.comparisons.length) products (db.products.map (fun r => r.id)) 1 entries
      ∧ (rows.map (fun r => r.rank)).Pairwise (· < ·)
      ∧ (∀ r ∈ rows, 1 ≤ r.rank ∧ r.rank ≤ entries.length)
      ∧ (rows.length = entries.length →
          rows.map (fun r => r.rank) = List.range' 1 entries.length) := by
  simp only [save_comparison, hr, Option.getD_some] at hs
  rw [rankLoop_rows] at hs
  set rows := rowsSpec (db.comparisons.length) products (db.products.map (fun r => r.id)) 1 entries with hrows
  have hdb' : db'.rankings = db.rankings ++ rows := by
    cases hs
    rfl
  refine ⟨rows, hdb', rfl, ?_, ?_, ?_⟩
  · have := rowsSpec_sorted (db.comparisons.length) products
      (db.products.map (fun r => r.id)) entries 1
    exact List.pairwise_map.mpr this
  · intro r hrm
    have := rowsSpec_rank_bounds (db.comparisons.length) products
      (db.products.map (fun r => r.id)) entries 1 r hrm
    omega
  · intro hlen
    exact rowsSpec_dense_of_full (db.comparisons.length) products
      (db.products.map (fun r => r.id)) entries 1 hlen

/-- A persisted product (id 0) and its ranking-stage dict. -/
def C7pd : PData :=
  { id := 0, name := "p".toList, price := some 5, currency := "USD".toList, url := [],
    source_domain := [], rating := none, review_count := none, features := .arr [],
    availability := .str "unknown".toList }

/-- The matching Product row in the store. -/
def C7prow : ProductRow :=
  { id := 0, crawl_session := 0, name := "p".toList, price := some 5,
    currency := "USD".toList, url := [], source_domain := [], image_url := .str [],
    raw_data := .obj [], features := .arr [], llm_score := none, llm_pros := .arr [],
    llm_cons := .arr [], llm_summary := .str [] }

/-- A completed query owning that product. -/
def C7q : QueryRec :=
  { query_text := "q".toList, status := .processing, error_message := [], parsed_intent := none }

/-- Store with one product and no prior comparisons. -/
def C7db : DB :=
  { query := C7q, sessions := [], products := [C7prow], comparisons := [], rankings := [] }

/-- Ranking result whose first entry references a missing product
(index 5) and whose second references product 0. -/
def C7rrGap : Json :=
  .obj [("rankings".toList,
         .arr [.obj [("product_index".toList, .num 5 false)],
               .obj [("product_index".toList, .num 0 false)]])]

/-- Counterexample to C7 as stated: with the first entry skipped, the
single created ProductRanking row has rank 2 — the rank values are not
the dense block 1..n (which would be [1]). -/
theorem C7_counterexample :
    (save_comparison C7db [C7pd] C7rrGap).map
        (fun p => (p.1.rankings.map (fun r => r.rank), p.1.rankings.length))
      = .ok ([2], 1) := by
  with_unfolding_all rfl

/-- A rankings list in which no entry is skipped. -/
def C7entriesOk : List Json := [.obj [("product_index".toList, .num 0 false)]]

/-- Its ranking-result fields. -/
def C7fieldsOk : List (List Char × Json) := [("rankings".toList, .arr C7entriesOk)]

/-- The store/comparison-id pair the save produces. -/
def C7res : DB × Nat :=
  match save_comparison C7db [C7pd] (.obj C7fieldsOk) with
  | .ok p => p
  | .error _ => (C7db, 0)

/-- Witness for C7 (amended) at the one-entry, no-skip ranking. -/
theorem C7_ranking_rows_witness :
    ∃ rows, C7res.1.rankings = C7db.rankings ++ rows
      ∧ rows = rowsSpec (C7db.comparisons.length) [C7pd]
          (C7db.products.map (fun r => r.id)) 1 C7entriesOk
      ∧ (rows.map (fun r => r.rank)).Pairwise (· < ·)
      ∧ (∀ r ∈ rows, 1 ≤ r.rank ∧ r.rank ≤ C7entriesOk.length)
      ∧ (rows.length = C7entriesOk.length →
          rows.map (fun r => r.rank) = List.range' 1 C7entriesOk.length) :=
  C7_ranking_rows C7db [C7pd] C7fieldsOk C7entriesOk C7res.1 C7res.2 rfl
    (by with_unfolding_all rfl)

/-- C4 (amended): `QueryParser._extract_json` tries the three tiers in
order — but when tier (b) finds a fenced block whose contents do not
parse, the `JSONDecodeError` escapes and tier (c) is never attempted (so
extraction can fail even though the brace-pattern tier would succeed;
see the counterexample). -/
theorem C4_extraction_tiers :
    (∀ raw d, jsonParse (pyStrip raw) = some d → extract_json raw = .ok d)
    ∧ (∀ raw g d, jsonParse (pyStrip raw) = none → findFencedBlock raw = some g →
        jsonParse (pyStrip g) = some d → extract_json raw = .ok d)
    ∧ (∀ raw g, jsonParse (pyStrip raw) = none → findFencedBlock raw = some g →
        jsonParse (pyStrip g) = none → extract_json raw = .error .jsonDecode)
    ∧ (∀ raw m ms d, jsonParse (pyStrip raw) = none → findFencedBlock raw = none →
        findObjMatches raw = m :: ms → jsonParse m = some d → extract_json raw = .ok d)
    ∧ (∀ raw, jsonParse (pyStrip raw) = none → findFencedBlock raw = none →
        findObjMatches raw = [] → extract_json raw = .error .valueError) := by
  refine ⟨?_, ?_, ?_, ?_, ?_⟩
  · intro raw d h1
    simp only [extract_json, h1]
  · intro raw g d h1 h2 h3
    simp only [extract_json, h1, h2, h3]
  · intro raw g h1 h2 h3
    simp only [extract_json, h1, h2, h3]
  · intro raw m ms d h1 h2 h3 h4
    simp only [extract_json, h1, h2, h3, h4]
  · intro raw h1 h2 h3
    simp only [extract_json, h1, h2, h3]

/-- Three backticks. -/
def fenceMark : List Char := [btick, btick, btick]

/-- A small JSON object, serialized. -/
def C4obj : List Char := lbrace :: "\"a\": 1".toList ++ [rbrace]

/-- Raw text whose fenced block holds non-JSON while a parseable brace
span follows the fence. -/
def C4raw : List Char := fenceMark ++ "\nhi\n".toList ++ fenceMark ++ '\n' :: C4obj

/-- Counterexample to C4 as stated: tier (b) matches the block `hi`,
its parse failure escapes, and tier (c) — which would succeed on the
trailing object — is never consulted. -/
theorem C4_counterexample :
    extract_json C4raw = .error PyErr.jsonDecode
    ∧ findObjMatches C4raw = [C4obj]
    ∧ jsonParse C4obj = some (.obj [("a".toList, .num 1 false)]) := by
  refine ⟨?_, ?_, ?_⟩ <;> with_unfolding_all rfl

/-- A fenced block with parseable contents. -/
def C4fenced : List Char := fenceMark ++ "json\n".toList ++ C4obj ++ '\n' :: fenceMark

/-- Prose around a brace span, with no fence. -/
def C4prose : List Char := "answer: ".toList ++ C4obj ++ " done".toList

/-- Witness for C4 (amended): each tier exercised at a concrete input. -/
theorem C4_extraction_tiers_witness :
    extract_json C4obj = .ok (.obj [("a".toList, .num 1 false)])
    ∧ extract_json C4fenced = .ok (.obj [("a".toList, .num 1 false)])
    ∧ extract_json C4raw = .error .jsonDecode
    ∧ extract_json C4prose = .ok (.obj [("a".toList, .num 1 false)])
    ∧ extract_json "hi there".toList = .error .valueError :=
  ⟨C4_extraction_tiers.1 C4obj _ (by with_unfolding_all rfl),
   C4_extraction_tiers.2.1 C4fenced C4obj _ (by with_unfolding_all rfl)
     (by with_unfolding_all rfl) (by with_unfolding_all rfl),
   C4_extraction_tiers.2.2.1 C4raw "hi".toList (by with_unfolding_all rfl)
     (by with_unfolding_all rfl) (by with_unfolding_all rfl),
   C4_extraction_tiers.2.2.2.1 C4prose C4obj [] _ (by with_unfolding_all rfl)
     (by with_unfolding_all rfl) (by with_unfolding_all rfl) (by with_unfolding_all rfl),
   C4_extraction_tiers.2.2.2.2 "hi there".toList (by with_unfolding_all rfl)
     (by with_unfolding_all rfl) (by with_unfolding_all rfl)⟩

/-- No backtick occurs in the string. -/
def noBacktick (s : List Char) : Bool := s.all (fun c => !(c = btick))

/-- One layer of markdown fencing with the `json` tag. -/
def wrapJsonFence (s : List Char) : List Char :=
  btick :: btick :: btick :: 'j' :: 's' :: 'o' :: 'n' :: '\n'
    :: (s ++ '\n' :: btick :: btick :: btick :: [])

/-- One layer of plain markdown fencing. -/
def wrapPlainFence (s : List Char) : List Char :=
  btick :: btick :: btick :: '\n' :: (s ++ '\n' :: btick :: btick :: btick :: [])

theorem trimRight_eq_rdropWhile (l : List Char) : trimRight l = List.rdropWhile isPyWs l := rfl

theorem startsFence_cons_ne (c : Char) (rest : List Char) (h : ¬(c = btick)) :
    startsFence (c :: rest) = false := by
  cases rest with
  | nil => rfl
  | cons c2 r2 =>
    cases r2 with
    | nil => rfl
    | cons c3 r3 => simp [startsFence, h]

theorem fenceSplit_append (t : List Char) :
    ∀ p : List Char, p.all (fun c => !(c = btick)) = true →
      fenceSplit (p ++ btick :: btick :: btick :: t) = some (p, t) := by
  intro p
  induction p with
  | nil =>
    intro _
    show fenceSplit (btick :: btick :: btick :: t) = some ([], t)
    simp [fenceSplit, startsFence]
  | cons c p' ih =>
    intro h
    simp only [List.all_cons, Bool.and_eq_true, Bool.not_eq_true'] at h
    have hc : ¬(c = btick) := by
      intro hcon
      rw [hcon] at h
      simp at h
    show fenceSplit (c :: (p' ++ btick :: btick :: btick :: t)) = some (c :: p', t)
    rw [fenceSplit, startsFence_cons_ne c _ hc]
    simp only [Bool.false_eq_true, if_false, ih h.2, Option.map_some']

theorem trimRight_append_nl (xs : List Char) :
    trimRight (xs ++ ['\n']) = trimRight xs := by
  rw [trimRight_eq_rdropWhile, trimRight_eq_rdropWhile]
  exact List.rdropWhile_concat_pos _ _ _ rfl

theorem trimRight_append_btick (Y : List Char) :
    trimRight (Y ++ [btick]) = Y ++ [btick] := by
  rw [trimRight_eq_rdropWhile]
  exact List.rdropWhile_concat_neg _ _ _ (by decide)

theorem pyStrip_wrapJson (s : List Char) : pyStrip (wrapJsonFence s) = wrapJsonFence s := by
  have h1 : trimLeft (wrapJsonFence s) = wrapJsonFence s := rfl
  have h2 : wrapJsonFence s
      = (btick :: btick :: btick :: 'j' :: 's' :: 'o' :: 'n' :: '\n'
          :: (s ++ ['\n', btick, btick])) ++ [btick] := by
    simp [wrapJsonFence]
  rw [pyStrip, h1, h2, trimRight_append_btick]

theorem pyStrip_wrapPlain (s : List Char) : pyStrip (wrapPlainFence s) = wrapPlainFence s := by
  have h1 : trimLeft (wrapPlainFence s) = wrapPlainFence s := rfl
  have h2 : wrapPlainFence s
      = (btick :: btick :: btick :: '\n' :: (s ++ ['\n', btick, btick])) ++ [btick] := by
    simp [wrapPlainFence]
  rw [pyStrip, h1, h2, trimRight_append_btick]

theorem jsonParse_btick (rest : List Char) : jsonParse (btick :: rest) = none := rfl

theorem fence_tail_all (s : List Char) (hb : noBacktick s = true) :
    (s.dropWhile isPyWs ++ ['\n']).all (fun c => !(c = btick)) = true := by
  rw [List.all_append, Bool.and_eq_true]
  constructor
  · rw [List.all_eq_true]
    intro c hc
    exact (List.all_eq_true.mp hb) c ((List.dropWhile_sublist isPyWs).subset hc)
  · decide

theorem findFencedBlock_wrap_core (s : List Char) (hb : noBacktick s = true) :
    (match fenceSplit ((s ++ '\n' :: btick :: btick :: btick :: []).dropWhile isPyWs) with
     | some (before, _) => some (trimRight before)
     | none => none) = some (pyStrip s) := by
  rw [List.dropWhile_append]
  cases hs' : (s.dropWhile isPyWs).isEmpty with
  | true =>
    have hnil : s.dropWhile isPyWs = [] := by
      cases hd : s.dropWhile isPyWs with
      | nil => rfl
      | cons a l => rw [hd] at hs'; cases hs'
    rw [if_pos rfl]
    show (match fenceSplit (btick :: btick :: btick :: []) with
          | some (before, _) => some (trimRight before)
          | none => none) = some (pyStrip s)
    rw [pyStrip, trimLeft, hnil]
    rfl
  | false =>
    rw [if_neg (by exact Bool.false_ne_true)]
    have hassoc : s.dropWhile isPyWs ++ '\n' :: btick :: btick :: btick :: []
        = (s.dropWhile isPyWs ++ ['\n']) ++ btick :: btick :: btick :: [] := by
      simp
    rw [hassoc, fenceSplit_append [] _ (fence_tail_all s hb)]
    show some (trimRight (s.dropWhile isPyWs ++ ['\n'])) = some (pyStrip s)
    rw [trimRight_append_nl]
    rfl

theorem findFencedBlock_wrapJson (s : List Char) (hb : noBacktick s = true) :
    findFencedBlock (wrapJsonFence s) = some (pyStrip s) := by
  have step : findFencedBlock (wrapJsonFence s)
      = (match fenceSplit ((s ++ '\n' :: btick :: btick :: btick :: []).dropWhile isPyWs) with
         | some (before, _) => some (trimRight before)
         | none => none) := rfl
  rw [step]
  exact findFencedBlock_wrap_core s hb

theorem findFencedBlock_wrapPlain (s : List Char) (hb : noBacktick s = true) :
    findFencedBlock (wrapPlainFence s) = some (pyStrip s) := by
  have step : findFencedBlock (wrapPlainFence s)
      = (match fenceSplit ((s ++ '\n' :: btick :: btick :: btick :: []).dropWhile isPyWs) with
         | some (before, _) => some (trimRight before)
         | none => none) := rfl
  rw [step]
  exact findFencedBlock_wrap_core s hb

theorem pyStrip_idem (l : List Char) : pyStrip (pyStrip l) = pyStrip l := by
  rw [pyStrip, pyStrip, trimLeft, trimLeft, trimRight_eq_rdropWhile, trimRight_eq_rdropWhile]
  set y := List.dropWhile isPyWs l with hy
  have hdL : List.dropWhile isPyWs y = y := List.dropWhile_idempotent isPyWs l
  have hdrop : List.dropWhile isPyWs (List.rdropWhile isPyWs y) = List.rdropWhile isPyWs y := by
    cases hz : List.rdropWhile isPyWs y with
    | nil => rfl
    | cons c t =>
      obtain ⟨w, hw⟩ := List.rdropWhile_prefix isPyWs y
      rw [hz] at hw
      have hyform : y = c :: (t ++ w) := by rw [← hw]; simp
      have hc : isPyWs c = false := by
        by_cases hic : isPyWs c = true
        · exfalso
          have hthis := hdL
          rw [hyform, List.dropWhile_cons, if_pos hic] at hthis
          have hlen : (List.dropWhile isPyWs (t ++ w)).length ≤ (t ++ w).length :=
            (List.dropWhile_sublist isPyWs).length_le
          rw [hthis] at hlen
          simp at hlen
        · simpa using hic
      rw [List.dropWhile_cons, hc]
      simp
  rw [hdrop, List.rdropWhile_idempotent]

/-- C3 (amended): for a backtick-free serialized document accepted by
direct extraction, wrapping in one layer of markdown fencing (tagged or
plain) is transparent to both `_extract_json` implementations; two
layers are NOT transparent — the fence regex matches an empty inner
block and extraction raises (see the counterexample). -/
theorem C3_fencing_transparent (s : List Char) (d : Json)
    (hb : noBacktick s = true)
    (hp : jsonParse (pyStrip s) = some d) :
    extract_json s = .ok d
    ∧ extract_json (wrapJsonFence s) = .ok d
    ∧ extract_json (wrapPlainFence s) = .ok d
    ∧ extract_json_ranker s = .ok d
    ∧ extract_json_ranker (wrapJsonFence s) = .ok d
    ∧ extract_json_ranker (wrapPlainFence s) = .ok d := by
  have haJ : jsonParse (pyStrip (wrapJsonFence s)) = none := by
    rw [pyStrip_wrapJson]; exact jsonParse_btick _
  have haP : jsonParse (pyStrip (wrapPlainFence s)) = none := by
    rw [pyStrip_wrapPlain]; exact jsonParse_btick _
  have hbJ := findFencedBlock_wrapJson s hb
  have hbP := findFencedBlock_wrapPlain s hb
  have hblock : jsonParse (pyStrip (pyStrip s)) = some d := by
    rw [pyStrip_idem]; exact hp
  refine ⟨?_, ?_, ?_, ?_, ?_, ?_⟩
  · simp only [extract_json, hp]
  · simp only [extract_json, haJ, hbJ, hblock]
  · simp only [extract_json, haP, hbP, hblock]
  · simp only [extract_json_ranker, hp]
  · simp only [extract_json_ranker, haJ, hbJ, hblock]
  · simp only [extract_json_ranker, haP, hbP, hblock]

/-- A small serialized JSON object. -/
def C3obj : List Char := lbrace :: "\"a\": 1".toList ++ [rbrace]

/-- Counterexample to C3 as stated: the document is well-formed, yet
with two layers of fencing both extractors raise `JSONDecodeError` (the
lazy fence group matches the empty string before the inner fence)
instead of yielding the parsed object. -/
theorem C3_counterexample :
    jsonParse (pyStrip C3obj) = some (.obj [("a".toList, .num 1 false)])
    ∧ extract_json (wrapJsonFence (wrapJsonFence C3obj)) = .error PyErr.jsonDecode
    ∧ extract_json_ranker (wrapJsonFence (wrapJsonFence C3obj)) = .error PyErr.jsonDecode := by
  refine ⟨?_, ?_, ?_⟩ <;> with_unfolding_all rfl

/-- Witness for C3 (amended) at the concrete object. -/
theorem C3_fencing_transparent_witness :
    extract_json C3obj = .ok (.obj [("a".toList, .num 1 false)])
    ∧ extract_json (wrapJsonFence C3obj) = .ok (.obj [("a".toList, .num 1 false)])
    ∧ extract_json (wrapPlainFence C3obj) = .ok (.obj [("a".toList, .num 1 false)])
    ∧ extract_json_ranker C3obj = .ok (.obj [("a".toList, .num 1 false)])
    ∧ extract_json_ranker (wrapJsonFence C3obj) = .ok (.obj [("a".toList, .num 1 false)])
    ∧ extract_json_ranker (wrapPlainFence C3obj) = .ok (.obj [("a".toList, .num 1 false)]) :=
  C3_fencing_transparent C3obj (.obj [("a".toList, .num 1 false)]) (by decide)
    (by with_unfolding_all rfl)
